import Mathlib

/-!
Verification development for the Linux profiling-data converter core
(`src/samply/src/linux_shared/converter.rs`).

The definitions below are a shallow embedding of `converter.rs`.  Collaborator
modules that are not part of the sources under verification
(`context_switch.rs`, `processes.rs`, `rss_stat.rs`, `types.rs`,
`timestamp_converter.rs`, `unresolved_samples.rs`) are modelled from the
specification; every such definition carries a doc comment starting with
"Modelled from the spec".  Machine integers are embedded as `Nat`/`Int` with
explicit `% 2^64` / `% 2^32` wrapping exactly where the Rust code can wrap.
-/

namespace Samply

/-- Modelled from the spec (section 4.2; `types.rs` is not under `src/`):
the stack mode of a frame — user, kernel or hypervisor. -/
inductive StackMode where
  | user
  | kernel
  | hypervisor
deriving DecidableEq, Repr

/-- Modelled from the spec (`types.rs` is not under `src/`): a stack frame as
used by the converter — an instruction pointer, a return address, or the
dedicated truncated-stack marker frame. -/
inductive StackFrame where
  | instructionPointer (addr : Nat) (mode : StackMode)
  | returnAddress (addr : Nat) (mode : StackMode)
  | truncatedStackMarker
deriving DecidableEq, Repr

/-- `framehop::FrameAddress`: an address produced by the DWARF unwinder,
tagged as instruction pointer or return address. -/
inductive FrameAddress where
  | instructionPointer (addr : Nat)
  | returnAddress (addr : Nat)
deriving DecidableEq, Repr

/-- One result of `frames.next()` in the DWARF unwind loop of
`Converter::get_sample_stack` (converter.rs lines 471-489):
`Ok(Some(frame))`, `Ok(None)` or `Err(_)`. -/
inductive IterNext where
  | okFrame (f : FrameAddress)
  | okNone
  | err
deriving DecidableEq, Repr

/-- `PERF_CONTEXT_MAX` from `linux_perf_event_reader::constants`:
`(u64)-4095`.  Callchain entries at or above this value are context markers. -/
def PERF_CONTEXT_MAX : Nat := 2 ^ 64 - 4095

/-- `(u64)-32`, the hypervisor context marker. -/
def PERF_CONTEXT_HV : Nat := 2 ^ 64 - 32

/-- `(u64)-128`, the kernel context marker. -/
def PERF_CONTEXT_KERNEL : Nat := 2 ^ 64 - 128

/-- `(u64)-512`, the user context marker. -/
def PERF_CONTEXT_USER : Nat := 2 ^ 64 - 512

/-- Modelled from the spec (section 4.2; `types.rs` is not under `src/`):
`StackMode::from_context_frame` — map a context-marker callchain entry to the
stack mode it switches to, `none` for unrecognized markers. -/
def stackModeFromContextFrame (addr : Nat) : Option StackMode :=
  if addr = PERF_CONTEXT_KERNEL then some StackMode.kernel
  else if addr = PERF_CONTEXT_USER then some StackMode.user
  else if addr = PERF_CONTEXT_HV then some StackMode.hypervisor
  else none

/-- The callchain loop of `Converter::get_sample_stack` (converter.rs lines
436-456): entries `>= PERF_CONTEXT_MAX` switch the current mode and are not
emitted; all others are emitted, the first as instruction pointer, the rest
as return addresses, each tagged with the mode current at emission time. -/
def callchainLoop : List Nat → StackMode → Bool → List StackFrame → List StackFrame
  | [], _, _, stack => stack
  | address :: rest, mode, isFirstFrame, stack =>
    if address ≥ PERF_CONTEXT_MAX then
      let mode := (stackModeFromContextFrame address).getD mode
      callchainLoop rest mode isFirstFrame stack
    else
      let stackFrame :=
        if isFirstFrame then StackFrame.instructionPointer address mode
        else StackFrame.returnAddress address mode
      callchainLoop rest mode false (stack ++ [stackFrame])

/-- Conversion of a `FrameAddress` produced by the unwinder into a
`StackFrame`, always tagged user mode (converter.rs lines 480-487). -/
def convertDwarfFrame : FrameAddress → StackFrame
  | FrameAddress.instructionPointer addr => StackFrame.instructionPointer addr StackMode.user
  | FrameAddress.returnAddress addr => StackFrame.returnAddress addr StackMode.user

/-- The DWARF unwind loop of `Converter::get_sample_stack` (converter.rs lines
471-489).  The unwinder iterator is embedded as the list of results the
successive `frames.next()` calls return.  `Ok(Some(frame))` pushes the
converted frame and continues; `Ok(None)` breaks; `Err(_)` pushes the
truncated-stack marker frame and breaks. -/
def dwarfWalk (stack : List StackFrame) : List IterNext → List StackFrame
  | [] => stack
  | IterNext.okNone :: _ => stack
  | IterNext.err :: _ => stack ++ [StackFrame.truncatedStackMarker]
  | IterNext.okFrame f :: rest => dwarfWalk (stack ++ [convertDwarfFrame f]) rest

/-- The fold-recursive-base-frame loop of `Converter::get_sample_stack`
(converter.rs lines 496-500): with `last` the (fixed) last frame, pop the
final element while the element before it equals `last` — collapsing a
repeated base-of-stack frame into one. -/
def foldRecursionAtBase (stack : List StackFrame) : List StackFrame :=
  match stack.reverse with
  | [] => stack
  | lastFrame :: rest =>
    (lastFrame :: rest.dropWhile (fun f => f = lastFrame)).reverse

/-- The input `SampleRecord`, restricted to the fields `converter.rs` reads.
The presence of `e.user_regs` and `e.user_stack` together with the unwinder's
responses is embedded as `dwarf`: `some trace` means both were present and the
unwinder's successive `next()` calls would return `trace`.  `cpuMode` is the
record's cpu mode already converted to a stack mode (`StackMode::from` /
`.into()`, `types.rs`).  `rawRss` embeds the raw payload of an RssStat record
as its parse outcome (`RssStat::parse`, `rss_stat.rs`, is not under `src/` and
the spec does not give the byte layout). -/
structure SampleRecordM where
  pid : Option Int
  tid : Option Int
  timestamp : Option Nat
  cpuMode : StackMode
  callchain : Option (List Nat)
  dwarf : Option (List IterNext)
  ip : Option Nat
  period : Option Nat
  rawRss : Option (Except Unit (Int × Int))

/-- `Converter::get_sample_stack` (converter.rs lines 424-502): assemble the
frame sequence of a sample, callee-most first; kernel callchain slice first,
then the DWARF-unwound user slice; single-ip fallback when empty; optional
folding of a repeated base frame. -/
def getSampleStack (e : SampleRecordM) (foldFlag : Bool) : List StackFrame :=
  let stack : List StackFrame := []
  let stack :=
    match e.callchain with
    | some callchain => callchainLoop callchain e.cpuMode true stack
    | none => stack
  let stack :=
    match e.dwarf with
    | some trace => dwarfWalk stack trace
    | none => stack
  if stack = [] then
    match e.ip with
    | some ip => [StackFrame.instructionPointer ip e.cpuMode]
    | none => []
  else if foldFlag then foldRecursionAtBase stack
  else stack

/-! ## Context-switch tracker (spec-modelled) -/

/-- Modelled from the spec (section 4.3; `context_switch.rs` is not under
`src/`): per-thread ledger of the context-switch tracker — last switch-in
time, accumulated on-CPU nanoseconds since the last sample, last switch-out
time. -/
structure ThreadContextSwitchData where
  lastSwitchInTime : Option Nat
  onCpuDurationSinceLastSample : Nat
  lastSwitchOutTime : Option Nat
deriving DecidableEq, Repr

/-- `OffCpuSampleGroup` ({begin timestamp, end timestamp, sample count}). -/
structure OffCpuSampleGroup where
  beginTimestamp : Nat
  endTimestamp : Nat
  sampleCount : Nat
deriving DecidableEq, Repr

/-- Modelled from the spec (section 4.3.a): `ContextSwitchHandler::handle_sample` —
if the thread was switched out and has not yet been re-sampled, compute the
number of synthetic samples that would have fallen in the off-CPU interval
using the configured off-CPU sampling interval, return the group, and clear
the off-CPU state.  Groups are emitted only when at least one synthetic
sample falls in the interval. -/
def contextSwitchHandlerHandleSample (offCpuSamplingIntervalNs : Nat) (timestamp : Nat)
    (d : ThreadContextSwitchData) : Option OffCpuSampleGroup × ThreadContextSwitchData :=
  match d.lastSwitchOutTime with
  | some outTime =>
    let sampleCount := (timestamp - outTime) / offCpuSamplingIntervalNs
    if sampleCount ≥ 1 then
      (some ⟨outTime, timestamp, sampleCount⟩, { d with lastSwitchOutTime := none })
    else
      (none, { d with lastSwitchOutTime := none })
  | none => (none, d)

/-- Modelled from the spec (section 4.3.a): `ContextSwitchHandler::consume_cpu_delta` —
return and reset the accumulated on-CPU nanoseconds. -/
def consumeCpuDelta (d : ThreadContextSwitchData) : Nat × ThreadContextSwitchData :=
  (d.onCpuDurationSinceLastSample, { d with onCpuDurationSinceLastSample := 0 })

/-- Modelled from the spec (section 4.3.a): `ContextSwitchHandler::handle_switch_out` —
record the switch-out time. -/
def handleSwitchOut (timestamp : Nat) (d : ThreadContextSwitchData) : ThreadContextSwitchData :=
  { d with lastSwitchOutTime := some timestamp }

/-! ## Profile-side sample store and stack interning (spec-modelled shells) -/

/-- Modelled from the spec (`timestamp_converter.rs` is not under `src/`):
monotonic-to-wall conversion anchored at the first sample;
`convert_time` of a raw timestamp. -/
def convertTime (referenceRaw : Nat) (t : Nat) : Nat := t - referenceRaw

/-- An entry of a process's `UnresolvedSamples` buffer, as appended by
`add_sample`: thread handle, converted profile timestamp, raw monotonic
timestamp, interned stack handle, cpu delta in nanoseconds, and weight. -/
structure UnresolvedSample where
  thread : Nat
  timestamp : Nat
  timestampMono : Nat
  stack : Nat
  cpuDelta : Nat
  weight : Int
deriving DecidableEq, Repr

/-- Modelled from the spec (section 3, `UnresolvedStacks` is not under
`src/`): an intern table deduplicating stack sequences (caller-to-callee
order) into stable handles.  `convert` returns the handle of the sequence,
appending it when new. -/
def unresolvedStacksConvert (table : List (List StackFrame)) (s : List StackFrame) :
    Nat × List (List StackFrame) :=
  match table.findIdx? (fun t => t = s) with
  | some i => (i, table)
  | none => (table.length, table ++ [s])

/-- The member code of an RssStat record together with its size, as produced
by `RssStat::parse` (modelled from the spec, section 4.1 "RssStat";
`rss_stat.rs` is not under `src/`). -/
structure RssStatM where
  member : Int
  size : Int
deriving DecidableEq, Repr

/-- `MM_FILEPAGES` (kernel mm counter member id). -/
def MM_FILEPAGES : Int := 0

/-- `MM_ANONPAGES` (kernel mm counter member id). -/
def MM_ANONPAGES : Int := 1

/-- `MM_SWAPENTS` (kernel mm counter member id). -/
def MM_SWAPENTS : Int := 2

/-- `MM_SHMEMPAGES` (kernel mm counter member id). -/
def MM_SHMEMPAGES : Int := 3

/-- `RssStatMember`, the profile-side label of an RSS marker. -/
inductive RssStatMember where
  | residentFileMappingPages
  | residentAnonymousPages
  | residentSharedMemoryPages
  | anonymousSwapEntries
deriving DecidableEq, Repr

/-- A marker appended by `add_rss_stat_marker` (converter.rs lines 347-355). -/
structure RssMarker where
  thread : Nat
  timestamp : Nat
  timestampMono : Nat
  stack : Nat
  member : RssStatMember
  size : Int
  delta : Int
deriving DecidableEq, Repr

/-! ## Process and thread state -/

/-- Per-thread converter state (spec section 3 "Thread"; the thread registry
`processes.rs` is not under `src/` and is modelled from the spec).  Profile
attributes reached through the thread's profile handle (name, start and end
time) are stored inline. -/
structure ThreadM where
  name : Option String
  profileStartTime : Option Nat
  profileEndTime : Option Nat
  lastSampleTimestamp : Option Nat
  contextSwitchData : ThreadContextSwitchData
  offCpuStack : Option Nat
  profileThread : Nat
deriving DecidableEq, Repr

/-- Per-process converter state (spec section 3 "Process").  Profile
attributes reached through the process's profile handle are stored inline.
`memCounter` is the lazily-created memory-delta counter with its appended
`(time, value)` samples (`add_counter_sample` values are exact integers here;
the `as f64` conversion in converter.rs line 328 is exact for
`|delta| < 2^53`). -/
structure ProcessM where
  name : Option String
  profileStartTime : Option Nat
  profileEndTime : Option Nat
  mainThread : ThreadM
  otherThreads : Int → Option ThreadM
  endedThreads : List (Option String × ThreadM)
  unresolvedSamples : List UnresolvedSample
  rssMarkers : List RssMarker
  memCounter : Option (List (Nat × Int))
  prevMmFilepagesSize : Int
  prevMmAnonpagesSize : Int
  prevMmShmempagesSize : Int
  prevMmSwapentsSize : Int

/-- The converter state (the fields of `Converter` the embedded operations
read or write).  `eventIsClockLike` is modelled from the spec (section 9,
open question): whether the observed perf event is one of the clock-time
events; converter.rs line 234 carries a TODO and never consults it. -/
structure ConverterState where
  currentSampleTime : Nat
  timestampRef : Nat
  haveContextSwitches : Bool
  eventIsClockLike : Bool
  offCpuWeightPerSample : Int
  offCpuSamplingIntervalNs : Nat
  mergeThreads : Bool
  foldRecursiveBase : Bool
  processes : Int → Option ProcessM
  endedProcesses : List (Option String × ProcessM)
  unresolvedStacks : List (List StackFrame)
  product : String
  haveProductName : Bool
  delayedProductNameGenerator : Option (String → String)
  nextThreadHandle : Nat

/-- A fresh thread with profile thread handle `h`. -/
def freshThread (h : Nat) : ThreadM :=
  { name := none
    profileStartTime := none
    profileEndTime := none
    lastSampleTimestamp := none
    contextSwitchData := ⟨none, 0, none⟩
    offCpuStack := none
    profileThread := h }

/-- A fresh process whose main thread has profile thread handle `h`. -/
def freshProcess (h : Nat) : ProcessM :=
  { name := none
    profileStartTime := none
    profileEndTime := none
    mainThread := freshThread h
    otherThreads := fun _ => none
    endedThreads := []
    unresolvedSamples := []
    rssMarkers := []
    memCounter := none
    prevMmFilepagesSize := 0
    prevMmAnonpagesSize := 0
    prevMmShmempagesSize := 0
    prevMmSwapentsSize := 0 }

/-- Modelled from the spec (section 4.7; `processes.rs` is not under `src/`):
`Processes::get_by_pid` — look the process up, creating it lazily. -/
def getByPid (c : ConverterState) (pid : Int) : ProcessM × ConverterState :=
  match c.processes pid with
  | some p => (p, c)
  | none =>
    let p := freshProcess c.nextThreadHandle
    (p, { c with
            nextThreadHandle := c.nextThreadHandle + 1
            processes := fun k => if k = pid then some p else c.processes k })

/-- The process stored at `pid` (defaulting to a fresh one; all embedded call
sites ensure the process exists first). -/
def processOf (c : ConverterState) (pid : Int) : ProcessM :=
  (c.processes pid).getD (freshProcess 0)

/-- Store a process back at `pid`. -/
def setProcess (c : ConverterState) (pid : Int) (p : ProcessM) : ConverterState :=
  { c with processes := fun k => if k = pid then some p else c.processes k }

/-- Store thread `t` back as tid `tid` of process `p` (pid `pid`; `tid = pid`
addresses the main thread). -/
def storeThread (p : ProcessM) (pid tid : Int) (t : ThreadM) : ProcessM :=
  if tid = pid then { p with mainThread := t }
  else { p with otherThreads := fun k => if k = tid then some t else p.otherThreads k }

/-- Modelled from the spec (section 4.7): `Threads::get_thread_by_tid` —
look the thread up within the process at `pid`, creating it lazily; the main
thread is the one with `tid = pid`. -/
def getThreadByTid (c : ConverterState) (pid tid : Int) : ThreadM × ConverterState :=
  let p := processOf c pid
  if tid = pid then (p.mainThread, c)
  else
    match p.otherThreads tid with
    | some t => (t, c)
    | none =>
      let t := freshThread c.nextThreadHandle
      (t, setProcess { c with nextThreadHandle := c.nextThreadHandle + 1 } pid
            { p with otherThreads := fun k => if k = tid then some t else p.otherThreads k })

/-- Store thread `t` back at `(pid, tid)` in the converter state. -/
def setThread (c : ConverterState) (pid tid : Int) (t : ThreadM) : ConverterState :=
  setProcess c pid (storeThread (processOf c pid) pid tid t)

/-! ## Off-CPU sample groups -/

/-- `i32::try_from` on a `u64` value. -/
def i32TryFrom (n : Nat) : Option Int :=
  if n ≤ 2147483647 then some (n : Int) else none

/-- Wrapping `i32` arithmetic (Rust release-mode two's-complement wrap). -/
def wrapI32 (x : Int) : Int := (x + 2 ^ 31) % 2 ^ 32 - 2 ^ 31

/-- `process_off_cpu_sample_group` (converter.rs lines 1219-1263): append one
sample at the group's begin timestamp carrying the leftover cpu delta and the
per-sample weight; when the sample count exceeds one, append a rest sample
whose profile timestamp is the group's end timestamp, with cpu delta zero and
weight `i32::try_from(sample_count - 1).unwrap_or(0) * off_cpu_weight_per_sample`,
reusing the same stack.  Note the second `add_sample` call passes
`begin_timestamp` as its raw monotonic timestamp argument. -/
def processOffCpuSampleGroup (offCpuSample : OffCpuSampleGroup) (threadHandle : Nat)
    (cpuDeltaNs : Nat) (timestampRef : Nat) (offCpuWeightPerSample : Int)
    (offCpuStack : Nat) (samples : List UnresolvedSample) : List UnresolvedSample :=
  let cpuDelta := cpuDeltaNs
  let weight := offCpuWeightPerSample
  let stack := offCpuStack
  let profileTimestamp := convertTime timestampRef offCpuSample.beginTimestamp
  let samples := samples ++
    [⟨threadHandle, profileTimestamp, offCpuSample.beginTimestamp, stack, cpuDelta, weight⟩]
  if offCpuSample.sampleCount > 1 then
    let cpuDelta := 0
    let weight := wrapI32 (((i32TryFrom (offCpuSample.sampleCount - 1)).getD 0) *
      offCpuWeightPerSample)
    let profileTimestamp := convertTime timestampRef offCpuSample.endTimestamp
    samples ++
      [⟨threadHandle, profileTimestamp, offCpuSample.beginTimestamp, stack, cpuDelta, weight⟩]
  else samples

/-- `Converter::new` (converter.rs lines 122-126): the off-CPU sampling
interval and per-sample weight — the real sampling interval and weight 1 when
sampling is time-based, the 1 ms default and weight 0 when event-based. -/
def offCpuParams (samplingIsTimeBased : Option Nat) : Nat × Int :=
  match samplingIsTimeBased with
  | some intervalNs => (intervalNs, 1)
  | none => (1000000, 0)

/-! ## Sample handling -/

/-- The thread-state evolution of `Converter::handle_sample` for a
non-duplicate sample (converter.rs lines 204-239): stamp the last-sample
timestamp, run the tracker's `handle_sample`, unconditionally `take()` the
saved off-CPU stack, emit the off-CPU sample group (consuming the leftover
cpu delta) when both a group and a saved stack are present, and compute the
sample's cpu delta — the tracker's consumed running time when context
switches are available, else the record's period (if any, regardless of the
event type — the TODO at line 234), else zero.  Returns the evolved thread,
the off-CPU samples to append, and the cpu delta. -/
def sampleThreadEvolve (c : ConverterState) (e : SampleRecordM) (timestamp : Nat)
    (thread : ThreadM) : ThreadM × List UnresolvedSample × Nat :=
  let thread := { thread with lastSampleTimestamp := some timestamp }
  let threadHandle := thread.profileThread
  let r := contextSwitchHandlerHandleSample c.offCpuSamplingIntervalNs timestamp
    thread.contextSwitchData
  let offCpuSample := r.1
  let thread := { thread with contextSwitchData := r.2 }
  let offCpuStackTaken := thread.offCpuStack
  let thread := { thread with offCpuStack := none }
  let te :=
    match offCpuSample, offCpuStackTaken with
    | some g, some st =>
      let cc := consumeCpuDelta thread.contextSwitchData
      ({ thread with contextSwitchData := cc.2 },
       processOffCpuSampleGroup g threadHandle cc.1 c.timestampRef
         c.offCpuWeightPerSample st [])
    | _, _ => (thread, [])
  let thread := te.1
  let offCpuEmitted := te.2
  let cd : Nat × ThreadM :=
    if c.haveContextSwitches then
      let cc := consumeCpuDelta thread.contextSwitchData
      (cc.1, { thread with contextSwitchData := cc.2 })
    else
      match e.period with
      | some p => (p, thread)
      | none => (0, thread)
  (cd.2, offCpuEmitted, cd.1)

/-- `Converter::handle_sample` (converter.rs lines 171-250).  The `expect`
calls on missing pid/tid/timestamp are embedded as `Except.error` (a Rust
panic aborts the conversion; the messages below drop the apostrophe of the
original "Cant handle samples without ..." expect text).  `process.check_jitdump`
polls the jitdump file on disk and does not touch the sample store; it is
modelled as a no-op.  The off-CPU samples are written into the process's
buffer before the main sample, exactly as in the source. -/
def handleSample (c : ConverterState) (e : SampleRecordM) : Except String ConverterState :=
  match e.pid, e.tid, e.timestamp with
  | none, _, _ => Except.error "Cant handle samples without pids"
  | _, none, _ => Except.error "Cant handle samples without tids"
  | _, _, none => Except.error "Cant handle samples without timestamps"
  | some pid, some tid, some timestamp =>
    let c := { c with currentSampleTime := timestamp }
    let profileTimestamp := convertTime c.timestampRef timestamp
    let c := (getByPid c pid).2
    let stack := getSampleStack e c.foldRecursiveBase
    let tc := getThreadByTid c pid tid
    let thread := tc.1
    let c := tc.2
    if thread.lastSampleTimestamp = some timestamp then
      -- Duplicate sample. Ignore.
      Except.ok c
    else
      let threadHandle := thread.profileThread
      let ev := sampleThreadEvolve c e timestamp thread
      let sc := unresolvedStacksConvert c.unresolvedStacks stack.reverse
      let c := { c with unresolvedStacks := sc.2 }
      let c := setThread c pid tid ev.1
      let p := processOf c pid
      Except.ok (setProcess c pid
        { p with unresolvedSamples := p.unresolvedSamples ++ ev.2.1 ++
            [⟨threadHandle, profileTimestamp, timestamp, sc.1, ev.2.2, 1⟩] })

/-- Processing a stream of sample records in order.  A panic (modelled as
`Except.error`) unwinds: no later record is processed. -/
def processStream (c : ConverterState) : List SampleRecordM → Except String ConverterState
  | [] => Except.ok c
  | e :: rest =>
    match handleSample c e with
    | Except.ok c2 => processStream c2 rest
    | Except.error msg => Except.error msg

/-! ## RssStat handling -/

/-- The previous cumulative size stored for an RSS member
(converter.rs lines 302-320 select the field by member code). -/
def prevForMember (p : ProcessM) (member : Int) : Int :=
  if member = MM_FILEPAGES then p.prevMmFilepagesSize
  else if member = MM_ANONPAGES then p.prevMmAnonpagesSize
  else if member = MM_SHMEMPAGES then p.prevMmShmempagesSize
  else p.prevMmSwapentsSize

/-- Update the previous cumulative size stored for an RSS member. -/
def setPrevForMember (p : ProcessM) (member : Int) (size : Int) : ProcessM :=
  if member = MM_FILEPAGES then { p with prevMmFilepagesSize := size }
  else if member = MM_ANONPAGES then { p with prevMmAnonpagesSize := size }
  else if member = MM_SHMEMPAGES then { p with prevMmShmempagesSize := size }
  else { p with prevMmSwapentsSize := size }

/-- The profile-side member label chosen in the same `match`
(converter.rs lines 302-320); `none` for an unrecognized member code. -/
def rssStatMemberOf (member : Int) : Option RssStatMember :=
  if member = MM_FILEPAGES then some RssStatMember.residentFileMappingPages
  else if member = MM_ANONPAGES then some RssStatMember.residentAnonymousPages
  else if member = MM_SHMEMPAGES then some RssStatMember.residentSharedMemoryPages
  else if member = MM_SWAPENTS then some RssStatMember.anonymousSwapEntries
  else none

/-- `Converter::handle_rss_stat` (converter.rs lines 281-356): parse failures
and a missing payload silently skip the record; a missing timestamp skips the
record; an unrecognized member skips the record.  Otherwise the delta against
the member's previous size is computed, the previous size updated, the delta
appended to the process memory counter when the member is the anonymous-pages
member, and a marker labelled by the member attached with the current
(interned) stack.  Only a missing pid panics (`expect`). -/
def handleRssStat (c : ConverterState) (e : SampleRecordM) : Except String ConverterState :=
  match e.pid with
  | none => Except.error "Cant handle samples without pids"
  | some pid =>
    let c := (getByPid c pid).2
    match e.rawRss with
    | none => Except.ok c
    | some (Except.error _) => Except.ok c
    | some (Except.ok rawPair) =>
      let rssStat : RssStatM := ⟨rawPair.1, rawPair.2⟩
      match e.timestamp with
      | none => Except.ok c
      | some timestampMono =>
        let timestamp := convertTime c.timestampRef timestampMono
        match rssStatMemberOf rssStat.member with
        | none => Except.ok c
        | some member =>
          let p := processOf c pid
          let delta := rssStat.size - prevForMember p rssStat.member
          let p := setPrevForMember p rssStat.member rssStat.size
          let p :=
            if rssStat.member = MM_ANONPAGES then
              { p with memCounter := some ((p.memCounter.getD []) ++ [(timestamp, delta)]) }
            else p
          let c := setProcess c pid p
          let stack := getSampleStack e c.foldRecursiveBase
          let (stackIndex, table) := unresolvedStacksConvert c.unresolvedStacks stack.reverse
          let c := { c with unresolvedStacks := table }
          let p := processOf c pid
          let threadHandle := p.mainThread.profileThread
          Except.ok (setProcess c pid
            { p with rssMarkers := p.rssMarkers ++
                [⟨threadHandle, timestamp, timestampMono, stackIndex, member,
                  rssStat.size, delta⟩] })

/-- Build an RssStat-shaped sample record for pid `pid` with a successfully
parsed `{member, size}` payload at monotonic time `ts`. -/
def mkRssRecord (pid : Int) (member : Int) (size : Int) (ts : Nat) : SampleRecordM :=
  { pid := some pid
    tid := some pid
    timestamp := some ts
    cpuMode := StackMode.user
    callchain := none
    dwarf := none
    ip := none
    period := none
    rawRss := some (Except.ok (member, size)) }

/-- Fold a list of `(member, size, timestamp)` RssStat records for one pid
through `handleRssStat` (with the pid present, no record can panic). -/
def runRss (c : ConverterState) (pid : Int) : List (Int × Int × Nat) → ConverterState
  | [] => c
  | (m, s, t) :: rest =>
    match handleRssStat c (mkRssRecord pid m s t) with
    | Except.ok c2 => runRss c2 pid rest
    | Except.error _ => c

/-- First differences of a size sequence against a starting prior. -/
def firstDiffs (prior : Int) : List Int → List Int
  | [] => []
  | s :: rest => (s - prior) :: firstDiffs s rest

/-! ## Process/thread lifecycle: CommOrExec -/

/-- The fields of a `CommOrExecRecord` the converter reads.  The raw name
bytes pass through `String::from_utf8_lossy` (total); the name is embedded
post-conversion. -/
structure CommOrExecRecordM where
  pid : Int
  tid : Int
  name : String
  isExecve : Bool

/-- Find the first entry named `some name`, returning it and the list with
that entry removed. -/
def findRemoveFirstNamed {α : Type} :
    List (Option String × α) → String → Option (α × List (Option String × α))
  | [], _ => none
  | (n, x) :: rest, name =>
    if n = some name then some (x, rest)
    else
      match findRemoveFirstNamed rest name with
      | some (y, rest2) => some (y, (n, x) :: rest2)
      | none => none

/-- Modelled from the spec (sections 4.7, 4.7.a; `processes.rs` is not under
`src/`): `Processes::remove` — retire the live process at `pid`, stamping the
end time on the process and its main thread, and keep it (keyed by its name)
for potential reuse. -/
def processesRemove (c : ConverterState) (pid : Int) (endTime : Nat) : ConverterState :=
  match c.processes pid with
  | none => c
  | some p =>
    let p := { p with
                 profileEndTime := some endTime
                 mainThread := { p.mainThread with profileEndTime := some endTime } }
    { c with
        processes := fun k => if k = pid then none else c.processes k
        endedProcesses := c.endedProcesses ++ [(p.name, p)] }

/-- Modelled from the spec (section 4.7.a): `Processes::attempt_reuse` —
rebind a recently-ended process with the given name to `pid`; returns whether
reuse succeeded. -/
def attemptReuse (c : ConverterState) (pid : Int) (name : String) : Bool × ConverterState :=
  match findRemoveFirstNamed c.endedProcesses name with
  | some (p, rest) =>
    (true, { c with
               processes := fun k => if k = pid then some p else c.processes k
               endedProcesses := rest })
  | none => (false, c)

/-- Modelled from the spec (sections 4.7, 4.7.a): `Threads::remove_non_main_thread` —
retire the thread at `tid`, stamping its end time; when thread-merging is
enabled the thread is kept (keyed by its name) for future reuse, otherwise
dropped. -/
def removeNonMainThread (p : ProcessM) (tid : Int) (endTime : Nat) (mergeThreads : Bool) :
    ProcessM :=
  match p.otherThreads tid with
  | none => p
  | some t =>
    let t := { t with profileEndTime := some endTime }
    let p := { p with otherThreads := fun k => if k = tid then none else p.otherThreads k }
    if mergeThreads then { p with endedThreads := p.endedThreads ++ [(t.name, t)] }
    else p

/-- Modelled from the spec (section 4.7.a): `Threads::attempt_thread_reuse` —
rebind a recently-ended thread with the given name to `tid`; returns whether
reuse succeeded. -/
def attemptThreadReuse (p : ProcessM) (tid : Int) (name : String) : Bool × ProcessM :=
  match findRemoveFirstNamed p.endedThreads name with
  | some (t, rest) =>
    (true, { p with
               otherThreads := fun k => if k = tid then some t else p.otherThreads k
               endedThreads := rest })
  | none => (false, p)

/-- `Converter::set_thread_name` (converter.rs lines 777-810): set the thread
name (and the process name when the thread is the main thread); when
`is_thread_creation`, stamp the thread (and main-thread process) start time
with the converted current sample time; feed a still-pending delayed product
name generator unless the name is the recorder stub "perf-exec". -/
def setThreadName (c : ConverterState) (pid tid : Int) (name : String)
    (isThreadCreation : Bool) : ConverterState :=
  let isMain : Bool := pid == tid
  let c := (getByPid c pid).2
  let (thread, c) := getThreadByTid c pid tid
  let thread := { thread with name := some name }
  let c := setThread c pid tid thread
  let c :=
    if isMain then
      let p := processOf c pid
      setProcess c pid { p with name := some name }
    else c
  let c :=
    if isThreadCreation then
      let time := convertTime c.timestampRef c.currentSampleTime
      let t := (getThreadByTid c pid tid).1
      let c := setThread c pid tid { t with profileStartTime := some time }
      if isMain then
        let p := processOf c pid
        setProcess c pid { p with profileStartTime := some time }
      else c
    else c
  match c.delayedProductNameGenerator with
  | some generator =>
    if name ≠ "perf-exec" then
      { c with
          product := generator name
          delayedProductNameGenerator := none
          haveProductName := true }
    else c
  | none => c

/-- The timestamp substitution of `handle_thread_name_update`
(converter.rs lines 820-824): a missing or zero record timestamp is replaced
by the last seen sample time. -/
def substituteTs (timestamp : Option Nat) (currentSampleTime : Nat) : Nat :=
  match timestamp with
  | some 0 => currentSampleTime
  | none => currentSampleTime
  | some ts => ts

/-- `Converter::handle_thread_name_update` (converter.rs lines 812-874): on
execve, end the prior process (main thread) or thread (non-main, logged as
unexpected) at the substituted timestamp and attempt reuse under the new
name; with thread-merging on a non-main non-execve record, do the same at the
thread level; finally `set_thread_name` with `is_thread_creation` true
exactly when reuse failed. -/
def handleThreadNameUpdate (c : ConverterState) (e : CommOrExecRecordM)
    (timestamp : Option Nat) : ConverterState :=
  let isMain : Bool := e.pid == e.tid
  let name := e.name
  let (isThreadCreation, c) :=
    if e.isExecve then
      let ts := substituteTs timestamp c.currentSampleTime
      let endTime := convertTime c.timestampRef ts
      if isMain then
        let c := processesRemove c e.pid endTime
        let (reused, c) := attemptReuse c e.pid name
        (!reused, c)
      else
        -- eprintln: "Unexpected is_execve on non-main thread!"
        let c := (getByPid c e.pid).2
        let p := processOf c e.pid
        let p := removeNonMainThread p e.tid endTime c.mergeThreads
        let (reusedT, p) := attemptThreadReuse p e.tid name
        (!reusedT, setProcess c e.pid p)
    else
      if c.mergeThreads && !isMain then
        let ts := substituteTs timestamp c.currentSampleTime
        let endTime := convertTime c.timestampRef ts
        let c := (getByPid c e.pid).2
        let p := processOf c e.pid
        let p := removeNonMainThread p e.tid endTime c.mergeThreads
        let (reusedT, p) := attemptThreadReuse p e.tid name
        (!reusedT, setProcess c e.pid p)
      else (false, c)
  setThreadName c e.pid e.tid name isThreadCreation

/-! ## PE correlator, UTF-8 path requirement, module loading -/

/-- `SuspectedPeMapping` (converter.rs lines 49-54): source path, start AVMA
and advertised image size of a suspected mapped PE binary.  The
`suspected_pe_mappings` BTreeMap keys entries by their start field. -/
structure SuspectedPeMapping where
  path : List Nat
  start : Nat
  size : Nat
deriving DecidableEq, Repr

/-- The entry with the greatest start key `≤ a`, i.e.
`suspected_pe_mappings.range(..=a).next_back()` (converter.rs lines 961-965);
the BTreeMap is embedded as its entry list (distinct start keys). -/
def greatestStartLE : List SuspectedPeMapping → Nat → Option SuspectedPeMapping
  | [], _ => none
  | m :: rest, a =>
    match greatestStartLE rest a with
    | none => if m.start ≤ a then some m else none
    | some g => if m.start ≤ a && g.start < m.start then some m else some g

/-- The PE-correlator lookup of `add_module_to_process` (converter.rs lines
960-969): take the greatest-keyed suspected mapping `≤ mapping_start_avma`
and keep it iff the queried range is contained in the candidate's range. -/
def lookupSuspectedPeMapping (ms : List SuspectedPeMapping)
    (mappingStartAvma mappingSize : Nat) : Option SuspectedPeMapping :=
  match greatestStartLE ms mappingStartAvma with
  | none => none
  | some m =>
    if mappingStartAvma ≥ m.start &&
        mappingStartAvma + mappingSize ≤ m.start + m.size then some m
    else none

/-- Is `b` a UTF-8 continuation byte (`0x80..=0xBF`)? -/
def isUtf8Cont (b : Nat) : Bool := 0x80 ≤ b && b ≤ 0xBF

/-- UTF-8 validity of a byte sequence, as enforced by Rust's
`std::str::from_utf8` (the standard UTF-8 byte-range table). -/
def utf8Valid : List Nat → Bool
  | [] => true
  | b :: rest =>
    if b ≤ 0x7F then utf8Valid rest
    else if 0xC2 ≤ b && b ≤ 0xDF then
      match rest with
      | c1 :: rest2 => isUtf8Cont c1 && utf8Valid rest2
      | [] => false
    else if b = 0xE0 then
      match rest with
      | c1 :: c2 :: rest2 => (0xA0 ≤ c1 && c1 ≤ 0xBF) && isUtf8Cont c2 && utf8Valid rest2
      | _ => false
    else if 0xE1 ≤ b && b ≤ 0xEC then
      match rest with
      | c1 :: c2 :: rest2 => isUtf8Cont c1 && isUtf8Cont c2 && utf8Valid rest2
      | _ => false
    else if b = 0xED then
      match rest with
      | c1 :: c2 :: rest2 => (0x80 ≤ c1 && c1 ≤ 0x9F) && isUtf8Cont c2 && utf8Valid rest2
      | _ => false
    else if 0xEE ≤ b && b ≤ 0xEF then
      match rest with
      | c1 :: c2 :: rest2 => isUtf8Cont c1 && isUtf8Cont c2 && utf8Valid rest2
      | _ => false
    else if b = 0xF0 then
      match rest with
      | c1 :: c2 :: c3 :: rest2 =>
        (0x90 ≤ c1 && c1 ≤ 0xBF) && isUtf8Cont c2 && isUtf8Cont c3 && utf8Valid rest2
      | _ => false
    else if 0xF1 ≤ b && b ≤ 0xF3 then
      match rest with
      | c1 :: c2 :: c3 :: rest2 =>
        isUtf8Cont c1 && isUtf8Cont c2 && isUtf8Cont c3 && utf8Valid rest2
      | _ => false
    else if b = 0xF4 then
      match rest with
      | c1 :: c2 :: c3 :: rest2 =>
        (0x80 ≤ c1 && c1 ≤ 0x8F) && isUtf8Cont c2 && isUtf8Cont c3 && utf8Valid rest2
      | _ => false
    else false

/-- `std::str::from_utf8(bytes).unwrap()`: the panic on invalid UTF-8 is
embedded as `Except.error`. -/
def strFromUtf8Unwrap (bytes : List Nat) : Except String (List Nat) :=
  if utf8Valid bytes then Except.ok bytes
  else Except.error "invalid utf-8 sequence"

/-- `2^64`, the `u64` modulus. -/
def U64_MOD : Nat := 2 ^ 64

/-- Wrapping (release-mode) `u64` subtraction of values `< 2^64`. -/
def u64Sub (a b : Nat) : Nat := (a + U64_MOD - b % U64_MOD) % U64_MOD

/-- Wrapping `u64` addition. -/
def u64Add (a b : Nat) : Nat := (a + b) % U64_MOD

/-- The outcome of `add_module_to_process` relevant to the claims: whether a
module/mapping was registered and with which base AVMA and truncated relative
address at start, plus the suspected-PE lookup result. -/
structure ModuleRegistration where
  baseAvma : Option Nat
  relativeAddressAtStart : Option Nat
  suspectedPeMapping : Option SuspectedPeMapping
deriving DecidableEq, Repr

/-- `Converter::add_module_to_process` (converter.rs lines 938-1203), with the
filesystem and object-file collaborators as oracle parameters: `openOk`
answers `open_file_with_fallback`, `parseOk` whether mmap+`object::File::parse`
succeed, `buildIdOk` whether the build-id verification passes (vacuously true
when the caller supplied none), `baseSvma` the object's
`relative_address_base`, and `bias` the result of `compute_vma_bias`.
The two `str::from_utf8(..).unwrap()` calls (lines 950 and 972) are embedded
as fallible steps; `Except.error` is a panic.  When no file can be opened the
fallback (lines 1171-1202) computes the base AVMA by unchecked (wrapping)
`u64` subtraction and always registers the mapping. -/
def addModuleToProcess (openOk : List Nat → Bool) (parseOk buildIdOk : Bool)
    (baseSvma : Nat) (bias : Option Nat) (pathSlice : List Nat)
    (mappingStartFileOffset mappingStartAvma mappingSize : Nat)
    (suspectedPeMappings : List SuspectedPeMapping) :
    Except String ModuleRegistration := do
  let _path ← strFromUtf8Unwrap pathSlice
  let fileOpen := openOk pathSlice
  let suspected : Option SuspectedPeMapping :=
    if fileOpen then none
    else lookupSuspectedPeMapping suspectedPeMappings mappingStartAvma mappingSize
  let fileOpen ←
    match suspected with
    | some m => do
      let _pePath ← strFromUtf8Unwrap m.path
      pure (fileOpen || openOk m.path)
    | none => pure fileOpen
  if fileOpen then
    if !parseOk then
      -- "File {path} has unrecognized format": log and drop the mapping.
      pure ⟨none, none, suspected⟩
    else if !buildIdOk then
      -- build-id mismatch or missing: log and drop the mapping.
      pure ⟨none, none, suspected⟩
    else
      let baseAvma : Option Nat :=
        match suspected with
        | some m => some m.start
        | none =>
          match bias with
          | some b => some (u64Add baseSvma b)
          | none => none
      match baseAvma with
      | none => pure ⟨none, none, suspected⟩
      | some base =>
        pure ⟨some base, some (u64Sub mappingStartAvma base % 2 ^ 32), suspected⟩
  else
    let baseAvma := u64Sub mappingStartAvma mappingStartFileOffset
    let relativeAddressAtStart := u64Sub mappingStartAvma baseAvma % 2 ^ 32
    pure ⟨some baseAvma, some relativeAddressAtStart, suspected⟩

/-- `Converter::add_kernel_module` (converter.rs lines 876-927), restricted to
the path handling and the installed kernel-wide mapping `[base, base+len)`:
the path bytes go through `str::from_utf8(path).unwrap()` (line 884). -/
def addKernelModule (baseAddress len : Nat) (path : List Nat) :
    Except String (Nat × Nat) := do
  let _path ← strFromUtf8Unwrap path
  pure (baseAddress, u64Add baseAddress len)

/-- A concrete initial converter state used by witnesses and counterexamples. -/
def emptyConverter : ConverterState :=
  { currentSampleTime := 0
    timestampRef := 0
    haveContextSwitches := false
    eventIsClockLike := false
    offCpuWeightPerSample := 0
    offCpuSamplingIntervalNs := 1000000
    mergeThreads := false
    foldRecursiveBase := false
    processes := fun _ => none
    endedProcesses := []
    unresolvedStacks := []
    product := ""
    haveProductName := true
    delayedProductNameGenerator := none
    nextThreadHandle := 0 }

/-- A sample record with no pid (the upstream-reader contract violation of
claim C5). -/
def noPidSampleRecord : SampleRecordM :=
  { pid := none, tid := some 1, timestamp := some 100, cpuMode := StackMode.user,
    callchain := none, dwarf := none, ip := none, period := none, rawRss := none }

/-- A well-formed minimal sample record. -/
def simpleSampleRecord : SampleRecordM :=
  { pid := some 1, tid := some 1, timestamp := some 200, cpuMode := StackMode.user,
    callchain := none, dwarf := none, ip := some 4096, period := none, rawRss := none }

/-- The cpu delta `handle_sample` stores for a non-duplicate sample, described
explicitly in terms of the thread state `t` found at sample time: with
context switches available, the tracker's accumulated on-CPU running time
(zero when an off-CPU group with a saved stack consumed it first as the
leftover delta of the group); without them, the record's period if present
(regardless of event type), else zero. -/
def sampleCpuDeltaSpec (c : ConverterState) (e : SampleRecordM) (ts : Nat) (t : ThreadM) :
    Nat :=
  if c.haveContextSwitches then
    if (contextSwitchHandlerHandleSample c.offCpuSamplingIntervalNs ts
          t.contextSwitchData).1.isSome && t.offCpuStack.isSome then 0
    else t.contextSwitchData.onCpuDurationSinceLastSample
  else
    match e.period with
    | some p => p
    | none => 0

/-- The per-sample CPU delta exactly as claim C1 words it (for comparison
with the code's behaviour): the period only when the event is clock-like,
zero otherwise. -/
def claimedCpuDeltaC1 (c : ConverterState) (e : SampleRecordM)
    (d : ThreadContextSwitchData) : Nat :=
  if c.haveContextSwitches then d.onCpuDurationSinceLastSample
  else if e.period.isSome && c.eventIsClockLike then e.period.getD 0
  else 0

/-! ## Helper lemmas -/

theorem dwarfWalk_frames (pre : List FrameAddress) :
    ∀ (stack : List StackFrame) (rest : List IterNext),
      dwarfWalk stack (pre.map IterNext.okFrame ++ rest)
        = dwarfWalk (stack ++ pre.map convertDwarfFrame) rest := by
  induction pre with
  | nil => intro stack rest; simp
  | cons f fs ih =>
    intro stack rest
    simp only [List.map_cons, List.cons_append, dwarfWalk, List.append_eq]
    rw [ih]
    simp

theorem convertDwarfFrame_ne_marker (f : FrameAddress) :
    convertDwarfFrame f ≠ StackFrame.truncatedStackMarker := by
  cases f <;> simp [convertDwarfFrame]

theorem count_markers_map_zero (pre : List FrameAddress) :
    (pre.map convertDwarfFrame).count StackFrame.truncatedStackMarker = 0 := by
  rw [List.count_eq_zero]
  intro h
  obtain ⟨f, _, hf⟩ := List.mem_map.mp h
  exact convertDwarfFrame_ne_marker f hf

theorem wrapI32_small (x : Int) (h1 : -(2 ^ 31) ≤ x) (h2 : x < 2 ^ 31) : wrapI32 x = x := by
  unfold wrapI32
  omega

theorem u64Sub_cancel (a b : Nat) (ha : a < U64_MOD) (hb : b < U64_MOD) :
    u64Sub a (u64Sub a b) = b := by
  unfold u64Sub U64_MOD
  unfold U64_MOD at ha hb
  have h1 : b % 2 ^ 64 = b := Nat.mod_eq_of_lt hb
  rw [h1]
  have h2 : (a + 2 ^ 64 - b) % 2 ^ 64 % 2 ^ 64 = (a + 2 ^ 64 - b) % 2 ^ 64 :=
    Nat.mod_mod_of_dvd _ dvd_rfl
  rw [h2]
  omega

/-! ## Claim theorems -/

/-- Claim C7 (confirmed): during DWARF unwinding, if the unwinder returns an
error mid-walk, exactly one dedicated truncated-stack marker frame is
appended and the walk stops (whatever iterator results would follow are never
consumed); the frames produced before the error are kept; and no truncated
marker is appended when the walk ends without error. -/
theorem dwarf_unwind_truncation (stack : List StackFrame) (pre : List FrameAddress)
    (rest : List IterNext) :
    dwarfWalk stack (pre.map IterNext.okFrame ++ IterNext.err :: rest)
      = stack ++ pre.map convertDwarfFrame ++ [StackFrame.truncatedStackMarker]
    ∧ (pre.map convertDwarfFrame ++ [StackFrame.truncatedStackMarker]).count
        StackFrame.truncatedStackMarker = 1
    ∧ dwarfWalk stack (pre.map IterNext.okFrame ++ IterNext.okNone :: rest)
      = stack ++ pre.map convertDwarfFrame
    ∧ (pre.map convertDwarfFrame).count StackFrame.truncatedStackMarker = 0 := by
  refine ⟨?_, ?_, ?_, count_markers_map_zero pre⟩
  · rw [dwarfWalk_frames]
    simp [dwarfWalk, List.append_assoc]
  · simp [List.count_append, count_markers_map_zero, List.count_singleton]
  · rw [dwarfWalk_frames]
    simp [dwarfWalk]

/-- Claim C2 (amended): for an emitted off-CPU sample group with the
per-sample weight from `Converter::new` (1 when sampling is time-based, 0
when event-based) and a saved off-CPU stack, exactly one sample is appended
at the group's begin timestamp carrying the leftover cpu delta and the
per-sample weight; a second sample (profile timestamp at the group's end,
cpu delta 0, weight `(count-1) * w`, same stack) is appended iff the count
exceeds 1; when `count - 1` overflows `i32` the second weight saturates to
zero.  Consequently the weights across the group sum to the count when
sampling is time-based **provided `count - 1` fits in an `i32`**, and sum to
zero when event-based. -/
theorem offcpu_group_emission (g : OffCpuSampleGroup) (threadHandle cpuDeltaNs timestampRef : Nat)
    (samplingIsTimeBased : Option Nat) (stack : Nat) (samples : List UnresolvedSample) :
    (g.sampleCount ≤ 1 →
      processOffCpuSampleGroup g threadHandle cpuDeltaNs timestampRef
          (offCpuParams samplingIsTimeBased).2 stack samples
        = samples ++ [⟨threadHandle, convertTime timestampRef g.beginTimestamp,
            g.beginTimestamp, stack, cpuDeltaNs, (offCpuParams samplingIsTimeBased).2⟩])
    ∧ (g.sampleCount > 1 →
      processOffCpuSampleGroup g threadHandle cpuDeltaNs timestampRef
          (offCpuParams samplingIsTimeBased).2 stack samples
        = samples ++ [⟨threadHandle, convertTime timestampRef g.beginTimestamp,
            g.beginTimestamp, stack, cpuDeltaNs, (offCpuParams samplingIsTimeBased).2⟩,
          ⟨threadHandle, convertTime timestampRef g.endTimestamp, g.beginTimestamp, stack, 0,
            wrapI32 (((i32TryFrom (g.sampleCount - 1)).getD 0) *
              (offCpuParams samplingIsTimeBased).2)⟩])
    ∧ (g.sampleCount - 1 > 2147483647 →
      wrapI32 (((i32TryFrom (g.sampleCount - 1)).getD 0) *
        (offCpuParams samplingIsTimeBased).2) = 0)
    ∧ (∀ ns, samplingIsTimeBased = some ns → 1 ≤ g.sampleCount →
        g.sampleCount - 1 ≤ 2147483647 →
        ((processOffCpuSampleGroup g threadHandle cpuDeltaNs timestampRef
            (offCpuParams samplingIsTimeBased).2 stack []).map UnresolvedSample.weight).sum
          = (g.sampleCount : Int))
    ∧ (samplingIsTimeBased = none →
        ((processOffCpuSampleGroup g threadHandle cpuDeltaNs timestampRef
            (offCpuParams samplingIsTimeBased).2 stack []).map UnresolvedSample.weight).sum
          = 0) := by
  refine ⟨?_, ?_, ?_, ?_, ?_⟩
  · intro h
    unfold processOffCpuSampleGroup
    simp [Nat.not_lt.mpr h]
  · intro h
    unfold processOffCpuSampleGroup
    simp [h]
  · intro h
    have : i32TryFrom (g.sampleCount - 1) = none := by
      unfold i32TryFrom
      simp
      omega
    rw [this]
    simp [wrapI32]
  · intro ns hns hge hle
    subst hns
    unfold processOffCpuSampleGroup offCpuParams
    by_cases h : g.sampleCount > 1
    · have h1 : i32TryFrom (g.sampleCount - 1) = some ((g.sampleCount - 1 : Nat) : Int) := by
        unfold i32TryFrom
        simp [hle]
      rw [if_pos h, h1]
      simp only [Option.getD_some, mul_one]
      rw [wrapI32_small _ (by omega) (by omega)]
      simp only [List.nil_append, List.singleton_append, List.map_cons, List.map_nil,
        List.sum_cons, List.sum_nil, add_zero]
      omega
    · have h1 : g.sampleCount = 1 := by omega
      rw [if_neg h]
      simp [h1]
  · intro hns
    subst hns
    unfold processOffCpuSampleGroup offCpuParams
    by_cases h : g.sampleCount > 1
    · simp only [h, if_pos]
      simp [wrapI32]
    · simp [h]

/-- Witness for `offcpu_group_emission` at a concrete group. -/
theorem offcpu_group_emission_witness :
    ((3 : Nat) ≤ 1 →
      processOffCpuSampleGroup ⟨100, 300, 3⟩ 7 42 10 (offCpuParams (some 50)).2 5 []
        = [⟨7, convertTime 10 100, 100, 5, 42, (offCpuParams (some 50)).2⟩])
    ∧ ((3 : Nat) > 1 →
      processOffCpuSampleGroup ⟨100, 300, 3⟩ 7 42 10 (offCpuParams (some 50)).2 5 []
        = [⟨7, convertTime 10 100, 100, 5, 42, (offCpuParams (some 50)).2⟩,
          ⟨7, convertTime 10 300, 100, 5, 0,
            wrapI32 (((i32TryFrom (3 - 1)).getD 0) * (offCpuParams (some 50)).2)⟩])
    ∧ ((3 : Nat) - 1 > 2147483647 →
      wrapI32 (((i32TryFrom ((3 : Nat) - 1)).getD 0) * (offCpuParams (some 50)).2) = 0)
    ∧ (∀ ns, (some 50 : Option Nat) = some ns → 1 ≤ (3 : Nat) → (3 : Nat) - 1 ≤ 2147483647 →
        ((processOffCpuSampleGroup ⟨100, 300, 3⟩ 7 42 10 (offCpuParams (some 50)).2 5
            []).map UnresolvedSample.weight).sum = ((3 : Nat) : Int))
    ∧ ((some 50 : Option Nat) = none →
        ((processOffCpuSampleGroup ⟨100, 300, 3⟩ 7 42 10 (offCpuParams (some 50)).2 5
            []).map UnresolvedSample.weight).sum = 0) :=
  offcpu_group_emission ⟨100, 300, 3⟩ 7 42 10 (some 50) 5 []

/-- Counterexample to claim C2 as stated: with time-based sampling (per-sample
weight 1) and a group whose count is `2^31 + 1`, the conversion of
`count - 1` to `i32` fails, the second sample's weight saturates to zero, and
the weights emitted across the group sum to 1, not to the group's count. -/
theorem offcpu_weight_sum_counterexample :
    (offCpuParams (some 1000)).2 = 1
    ∧ ((processOffCpuSampleGroup ⟨0, 5, 2147483649⟩ 0 0 0 1 0 []).map
        UnresolvedSample.weight).sum = 1
    ∧ (((2147483649 : Nat) : Int)) ≠ 1 := by
  refine ⟨rfl, ?_, by decide⟩
  decide

/-- Claim C9 (confirmed): processing an executable mapping requires its path
bytes to be valid UTF-8 — both `add_module_to_process` (line 950) and
`add_kernel_module` (line 884) pass the raw path through
`str::from_utf8(...).unwrap()`, so a record whose path is not valid UTF-8
panics instead of dropping the mapping and continuing. -/
theorem invalid_utf8_path_panics (pathSlice : List Nat) (openOk : List Nat → Bool)
    (parseOk buildIdOk : Bool) (baseSvma : Nat) (bias : Option Nat)
    (offset start size baseAddress len : Nat) (ms : List SuspectedPeMapping)
    (h : utf8Valid pathSlice = false) :
    addModuleToProcess openOk parseOk buildIdOk baseSvma bias pathSlice offset start size ms
      = Except.error "invalid utf-8 sequence"
    ∧ addKernelModule baseAddress len pathSlice = Except.error "invalid utf-8 sequence" := by
  constructor <;>
    simp [addModuleToProcess, addKernelModule, strFromUtf8Unwrap, h, Bind.bind, Except.bind]

/-- Witness for `invalid_utf8_path_panics`: the single byte `0xFF` is not
valid UTF-8, and both loaders panic on it. -/
theorem invalid_utf8_path_panics_witness :
    utf8Valid [255] = false
    ∧ (addModuleToProcess (fun _ => true) true true 0 none [255] 0 0 0 []
        = Except.error "invalid utf-8 sequence"
      ∧ addKernelModule 4096 64 [255] = Except.error "invalid utf-8 sequence") :=
  ⟨by decide, invalid_utf8_path_panics [255] (fun _ => true) true true 0 none 0 0 0 4096 64 []
    (by decide)⟩

/-- Claim C10 (confirmed): in the unopenable-file fallback (no file, no
matching PE candidate) the synthesized module's base AVMA is
`mapping_start_avma - mapping_start_file_offset` by unchecked (wrapping)
`u64` subtraction, the registered relative address at start equals the
mapping file offset truncated to `u32`, and when the file offset exceeds the
start AVMA the subtraction underflows (wraps) while the mapping is still
registered rather than skipped. -/
theorem unopenable_fallback_registration (parseOk buildIdOk : Bool) (baseSvma : Nat)
    (bias : Option Nat) (pathSlice : List Nat) (offset start size : Nat)
    (ms : List SuspectedPeMapping)
    (hpath : utf8Valid pathSlice = true)
    (hnopc : lookupSuspectedPeMapping ms start size = none)
    (hstart : start < U64_MOD) (hoff : offset < U64_MOD) :
    addModuleToProcess (fun _ => false) parseOk buildIdOk baseSvma bias pathSlice
        offset start size ms
      = Except.ok ⟨some ((start + U64_MOD - offset) % U64_MOD), some (offset % 2 ^ 32), none⟩
    ∧ (offset ≤ start → (start + U64_MOD - offset) % U64_MOD = start - offset)
    ∧ (start < offset →
        (start + U64_MOD - offset) % U64_MOD = U64_MOD - (offset - start)
        ∧ start < (start + U64_MOD - offset) % U64_MOD) := by
  have hbase : u64Sub start offset = (start + U64_MOD - offset) % U64_MOD := by
    unfold u64Sub
    rw [Nat.mod_eq_of_lt hoff]
  have hrel : u64Sub start (u64Sub start offset) = offset := u64Sub_cancel start offset hstart hoff
  refine ⟨?_, ?_, ?_⟩
  · simp only [addModuleToProcess, strFromUtf8Unwrap, hpath, hnopc, Bind.bind, Except.bind,
      Pure.pure, Except.pure, if_true, Bool.false_eq_true, if_false, ite_false, ite_true]
    rw [hrel, hbase]
  · intro h
    unfold U64_MOD
    unfold U64_MOD at hstart hoff
    omega
  · intro h
    unfold U64_MOD
    unfold U64_MOD at hstart hoff
    omega

/-- Witness for `unopenable_fallback_registration` at a concrete underflowing
record: start AVMA 5, file offset 10. -/
theorem unopenable_fallback_registration_witness :
    utf8Valid [97] = true
    ∧ lookupSuspectedPeMapping [] 5 4096 = none
    ∧ (5 : Nat) < U64_MOD ∧ (10 : Nat) < U64_MOD
    ∧ (addModuleToProcess (fun _ => false) true true 0 none [97] 10 5 4096 []
        = Except.ok ⟨some ((5 + U64_MOD - 10) % U64_MOD), some (10 % 2 ^ 32), none⟩
      ∧ ((10 : Nat) ≤ 5 → (5 + U64_MOD - 10) % U64_MOD = 5 - 10)
      ∧ ((5 : Nat) < 10 →
          (5 + U64_MOD - 10) % U64_MOD = U64_MOD - (10 - 5)
          ∧ 5 < (5 + U64_MOD - 10) % U64_MOD)) :=
  ⟨by decide, rfl, by decide, by decide,
    unopenable_fallback_registration true true 0 none [97] 10 5 4096 []
      (by decide) rfl (by decide) (by decide)⟩

theorem greatestStartLE_mem : ∀ (ms : List SuspectedPeMapping) (a : Nat)
    (g : SuspectedPeMapping), greatestStartLE ms a = some g → g ∈ ms ∧ g.start ≤ a := by
  intro ms a
  induction ms with
  | nil => intro g h; simp [greatestStartLE] at h
  | cons m rest ih =>
    intro g h
    rcases hrec : greatestStartLE rest a with _ | g2
    · simp only [greatestStartLE, hrec] at h
      split at h
      · injection h with h2
        subst h2
        exact ⟨List.mem_cons_self m rest, by assumption⟩
      · cases h
    · simp only [greatestStartLE, hrec] at h
      split at h
      · next hcond =>
        injection h with h2
        subst h2
        simp only [Bool.and_eq_true, decide_eq_true_eq] at hcond
        exact ⟨List.mem_cons_self m rest, hcond.1⟩
      · injection h with h2
        obtain ⟨hmem, hle⟩ := ih g2 hrec
        subst h2
        exact ⟨List.mem_cons_of_mem m hmem, hle⟩

theorem greatestStartLE_ge : ∀ (ms : List SuspectedPeMapping) (a : Nat)
    (m' : SuspectedPeMapping), m' ∈ ms → m'.start ≤ a →
    ∃ g, greatestStartLE ms a = some g ∧ m'.start ≤ g.start := by
  intro ms a
  induction ms with
  | nil => intro m' h; simp at h
  | cons m rest ih =>
    intro m' hmem hle
    rcases List.mem_cons.mp hmem with rfl | hmem2
    · rcases hrec : greatestStartLE rest a with _ | g2
      · refine ⟨m', ?_, le_refl _⟩
        simp only [greatestStartLE, hrec]
        rw [if_pos hle]
      · by_cases hc : g2.start < m'.start
        · refine ⟨m', ?_, le_refl _⟩
          simp only [greatestStartLE, hrec]
          rw [if_pos (by simp [hle, hc])]
        · refine ⟨g2, ?_, by omega⟩
          simp only [greatestStartLE, hrec]
          rw [if_neg (by simp only [Bool.and_eq_true, decide_eq_true_eq, not_and]; intro _; omega)]
    · obtain ⟨g2, hrec, hge⟩ := ih m' hmem2 hle
      by_cases hc : m.start ≤ a ∧ g2.start < m.start
      · refine ⟨m, ?_, by omega⟩
        simp only [greatestStartLE, hrec]
        rw [if_pos (by simp [hc.1, hc.2])]
      · refine ⟨g2, ?_, hge⟩
        simp only [greatestStartLE, hrec]
        rw [if_neg (by
          simp only [Bool.and_eq_true, decide_eq_true_eq, not_and]
          intro h1 h2
          exact hc ⟨h1, h2⟩)]

/-- Claim C4 (amended): for a mapping whose file cannot be opened, the
PE-correlator lookup considers only the suspected PE mapping with the
greatest start key `≤` the query start AVMA `a` and uses it iff
`a ≥ c.start ∧ a + s ≤ c.start + c.size`; **provided the candidates have
distinct start keys and pairwise disjoint `[start, start+size)` ranges and
the query size is at least 1**, no other candidate can satisfy the
containment predicate without being the one returned; and when the lookup
matches (and the candidate's file opens and parses), `c.start` is used as the
module's base AVMA instead of a bias computed from the mapping offsets. -/
theorem pe_correlator_lookup (ms : List SuspectedPeMapping) (a s : Nat)
    (hkeys : ∀ m1 ∈ ms, ∀ m2 ∈ ms, m1.start = m2.start → m1 = m2)
    (hdisj : ∀ m1 ∈ ms, ∀ m2 ∈ ms, m1.start ≠ m2.start →
      m1.start + m1.size ≤ m2.start ∨ m2.start + m2.size ≤ m1.start)
    (hs : 1 ≤ s) :
    (∀ m, lookupSuspectedPeMapping ms a s = some m ↔
      greatestStartLE ms a = some m ∧ a ≥ m.start ∧ a + s ≤ m.start + m.size)
    ∧ (∀ m' ∈ ms, a ≥ m'.start → a + s ≤ m'.start + m'.size →
        lookupSuspectedPeMapping ms a s = some m')
    ∧ (∀ m pathSlice offset (openOk : List Nat → Bool) (baseSvma : Nat) (bias : Option Nat),
        lookupSuspectedPeMapping ms a s = some m →
        utf8Valid pathSlice = true → utf8Valid m.path = true →
        openOk pathSlice = false → openOk m.path = true →
        addModuleToProcess openOk true true baseSvma bias pathSlice offset a s ms
          = Except.ok ⟨some m.start, some (u64Sub a m.start % 2 ^ 32), some m⟩) := by
  have hiff : ∀ m, lookupSuspectedPeMapping ms a s = some m ↔
      greatestStartLE ms a = some m ∧ a ≥ m.start ∧ a + s ≤ m.start + m.size := by
    intro m
    rcases hg : greatestStartLE ms a with _ | g
    · simp only [lookupSuspectedPeMapping, hg]
      simp
    · simp only [lookupSuspectedPeMapping, hg]
      constructor
      · intro h
        split at h
        · next hcond =>
          injection h with h2
          subst h2
          simp only [Bool.and_eq_true, decide_eq_true_eq] at hcond
          exact ⟨rfl, hcond.1, hcond.2⟩
        · cases h
      · rintro ⟨hgm, h1, h2⟩
        injection hgm with hgm
        subst hgm
        rw [if_pos (by simp only [Bool.and_eq_true, decide_eq_true_eq]; exact ⟨h1, h2⟩)]
  have honly : ∀ m' ∈ ms, a ≥ m'.start → a + s ≤ m'.start + m'.size →
      lookupSuspectedPeMapping ms a s = some m' := by
    intro m' hmem h1 h2
    obtain ⟨g, hg, hge⟩ := greatestStartLE_ge ms a m' hmem h1
    obtain ⟨hgmem, hgle⟩ := greatestStartLE_mem ms a g hg
    have hgm : g = m' := by
      by_cases heq : g.start = m'.start
      · exact hkeys g hgmem m' hmem heq
      · rcases hdisj m' hmem g hgmem (fun hx => heq hx.symm) with hd | hd
        · omega
        · omega
    subst hgm
    rw [(hiff g).mpr ⟨hg, h1, h2⟩]
  refine ⟨hiff, honly, ?_⟩
  intro m pathSlice offset openOk baseSvma bias hlook hp1 hp2 ho1 ho2
  simp only [addModuleToProcess, strFromUtf8Unwrap, hp1, hp2, ho1, ho2, hlook, Bind.bind,
    Except.bind, Pure.pure, Except.pure, if_true, ite_true, Bool.false_or, Bool.not_true,
    Bool.false_eq_true, if_false, ite_false]

/-- Witness for `pe_correlator_lookup`: one candidate `[0x1000, 0x4000)`,
query `a = 0x2000`, `s = 0x500`; the lookup matches and the candidate's start
is used as the base AVMA. -/
theorem pe_correlator_lookup_witness :
    (∀ m1 ∈ [(⟨[97], 4096, 12288⟩ : SuspectedPeMapping)],
      ∀ m2 ∈ [(⟨[97], 4096, 12288⟩ : SuspectedPeMapping)], m1.start = m2.start → m1 = m2)
    ∧ (∀ m1 ∈ [(⟨[97], 4096, 12288⟩ : SuspectedPeMapping)],
        ∀ m2 ∈ [(⟨[97], 4096, 12288⟩ : SuspectedPeMapping)], m1.start ≠ m2.start →
          m1.start + m1.size ≤ m2.start ∨ m2.start + m2.size ≤ m1.start)
    ∧ (1 : Nat) ≤ 1280
    ∧ lookupSuspectedPeMapping [⟨[97], 4096, 12288⟩] 8192 1280 = some ⟨[97], 4096, 12288⟩
    ∧ addModuleToProcess (fun p => p ≠ [98]) true true 0 none [98] 0 8192 1280
        [⟨[97], 4096, 12288⟩]
      = Except.ok ⟨some 4096, some (u64Sub 8192 4096 % 2 ^ 32), some ⟨[97], 4096, 12288⟩⟩ := by
  have h := pe_correlator_lookup [⟨[97], 4096, 12288⟩] 8192 1280 (by decide) (by decide)
    (by decide)
  refine ⟨by decide, by decide, by decide, ?_, ?_⟩
  · exact h.2.1 ⟨[97], 4096, 12288⟩ (by decide) (by decide) (by decide)
  · exact h.2.2 ⟨[97], 4096, 12288⟩ [98] 0 (fun p => p ≠ [98]) 0 none
      (h.2.1 ⟨[97], 4096, 12288⟩ (by decide) (by decide) (by decide))
      (by decide) (by decide) (by decide) (by decide)

/-- Counterexample to claim C4 as stated: with overlapping candidates
`[0, 1000)` and `[10, 11)` and query `a = 10`, `s = 5`, the candidate
starting at 0 satisfies the containment predicate, yet the lookup considers
only the greatest key `≤ 10` (the candidate at 10), which fails containment —
so the lookup returns nothing although another candidate matches, refuting
"no other candidate can match". -/
theorem pe_correlator_counterexample :
    ((10 : Nat) ≥ (0 : Nat) ∧ (10 : Nat) + 5 ≤ 0 + 1000)
    ∧ (⟨[], 0, 1000⟩ : SuspectedPeMapping) ∈
        [(⟨[], 0, 1000⟩ : SuspectedPeMapping), ⟨[], 10, 1⟩]
    ∧ greatestStartLE [(⟨[], 0, 1000⟩ : SuspectedPeMapping), ⟨[], 10, 1⟩] 10
        = some ⟨[], 10, 1⟩
    ∧ lookupSuspectedPeMapping [(⟨[], 0, 1000⟩ : SuspectedPeMapping), ⟨[], 10, 1⟩] 10 5
        = none := by
  refine ⟨by decide, ?_, by decide, by decide⟩
  exact List.mem_cons_self _ _

theorem getByPid_cst (c : ConverterState) (pid : Int) :
    ((getByPid c pid).2).currentSampleTime = c.currentSampleTime := by
  unfold getByPid
  rcases c.processes pid with _ | p <;> rfl

theorem getByPid_processes_self (c : ConverterState) (pid : Int) :
    ((getByPid c pid).2).processes pid = some ((getByPid c pid).1) := by
  unfold getByPid
  rcases h : c.processes pid with _ | p
  · simp
  · simp [h]

theorem getThreadByTid_cst (c : ConverterState) (pid tid : Int) :
    ((getThreadByTid c pid tid).2).currentSampleTime = c.currentSampleTime := by
  unfold getThreadByTid setProcess
  by_cases h : tid = pid
  · simp [h]
  · rcases hc : (processOf c pid).otherThreads tid with _ | t <;> simp [h, hc]

theorem converter_set_cst_self (c : ConverterState) (ts : Nat)
    (h : c.currentSampleTime = ts) : { c with currentSampleTime := ts } = c := by
  cases c
  simp_all

theorem getThreadByTid_state_of_exists (c : ConverterState) (pid tid : Int)
    (h : tid = pid ∨ (processOf c pid).otherThreads tid ≠ none) :
    (getThreadByTid c pid tid).2 = c := by
  unfold getThreadByTid
  by_cases htp : tid = pid
  · simp [htp]
  · rcases hcase : (processOf c pid).otherThreads tid with _ | t
    · rcases h with h | h
      · exact absurd h htp
      · exact absurd hcase h
    · simp [htp, hcase]

theorem getThreadByTid_exists_of_dup (c : ConverterState) (pid tid : Int) (ts : Nat)
    (hdup : (getThreadByTid c pid tid).1.lastSampleTimestamp = some ts) :
    tid = pid ∨ (processOf c pid).otherThreads tid ≠ none := by
  by_cases htp : tid = pid
  · exact Or.inl htp
  · right
    intro hnone
    unfold getThreadByTid at hdup
    simp [htp, hnone, freshThread] at hdup

theorem contextSwitchHandlerHandleSample_onCpu (i ts : Nat) (d : ThreadContextSwitchData) :
    (contextSwitchHandlerHandleSample i ts d).2.onCpuDurationSinceLastSample
      = d.onCpuDurationSinceLastSample := by
  unfold contextSwitchHandlerHandleSample
  rcases d.lastSwitchOutTime with _ | o
  · rfl
  · by_cases h : (ts - o) / i ≥ 1 <;> simp [h]

theorem sampleThreadEvolve_last (c : ConverterState) (e : SampleRecordM) (ts : Nat)
    (t : ThreadM) :
    (sampleThreadEvolve c e ts t).1.lastSampleTimestamp = some ts := by
  unfold sampleThreadEvolve
  dsimp only
  repeat' split
  all_goals simp [consumeCpuDelta]

theorem handleSample_dup (c : ConverterState) (e : SampleRecordM) (pid tid : Int) (ts : Nat)
    (h1 : e.pid = some pid) (h2 : e.tid = some tid) (h3 : e.timestamp = some ts)
    (hdup : (getThreadByTid ((getByPid { c with currentSampleTime := ts } pid)).2
        pid tid).1.lastSampleTimestamp = some ts) :
    handleSample c e
      = Except.ok ((getThreadByTid ((getByPid { c with currentSampleTime := ts } pid)).2
          pid tid)).2 := by
  simp only [handleSample, h1, h2, h3]
  rw [if_pos hdup]

theorem except_bind_ok {ε α β : Type} (x : α) (f : α → Except ε β) :
    (Except.ok x : Except ε α).bind f = f x := rfl

theorem handleSample_ensured_dup (c : ConverterState) (e : SampleRecordM) (pid tid : Int)
    (ts : Nat) (h1 : e.pid = some pid) (h2 : e.tid = some tid) (h3 : e.timestamp = some ts)
    (hcst : c.currentSampleTime = ts)
    (hproc : ∃ p, c.processes pid = some p)
    (hdup : (getThreadByTid c pid tid).1.lastSampleTimestamp = some ts) :
    handleSample c e = Except.ok c := by
  obtain ⟨p, hp⟩ := hproc
  have heta : { c with currentSampleTime := ts } = c := converter_set_cst_self c ts hcst
  have hbp : getByPid c pid = (p, c) := by unfold getByPid; rw [hp]
  have hstate : (getThreadByTid c pid tid).2 = c :=
    getThreadByTid_state_of_exists c pid tid (getThreadByTid_exists_of_dup c pid tid ts hdup)
  have key : ((getByPid { c with currentSampleTime := ts } pid)).2 = c := by
    rw [heta, hbp]
  have hd : (getThreadByTid ((getByPid { c with currentSampleTime := ts } pid)).2
      pid tid).1.lastSampleTimestamp = some ts := by
    rw [key]; exact hdup
  have hmain := handleSample_dup c e pid tid ts h1 h2 h3 hd
  rw [hmain, key, hstate]

theorem getThreadByTid_fst_eq (c : ConverterState) (pid tid : Int) :
    (getThreadByTid c pid tid).1
      = if tid = pid then (processOf c pid).mainThread
        else ((processOf c pid).otherThreads tid).getD (freshThread c.nextThreadHandle) := by
  unfold getThreadByTid
  by_cases htp : tid = pid
  · simp [htp]
  · rcases h : (processOf c pid).otherThreads tid with _ | t <;> simp [htp, h]

theorem handleSample_ok_facts (c c2 : ConverterState) (e : SampleRecordM) (pid tid : Int)
    (ts : Nat) (h1 : e.pid = some pid) (h2 : e.tid = some tid) (h3 : e.timestamp = some ts)
    (hrun : handleSample c e = Except.ok c2) :
    c2.currentSampleTime = ts ∧ c2.processes pid ≠ none ∧
    (getThreadByTid c2 pid tid).1.lastSampleTimestamp = some ts := by
  simp only [handleSample, h1, h2, h3] at hrun
  split at hrun
  · next hcond =>
    injection hrun with hrun
    subst hrun
    have hst : (getThreadByTid ((getByPid { c with currentSampleTime := ts } pid)).2
        pid tid).2 = ((getByPid { c with currentSampleTime := ts } pid)).2 :=
      getThreadByTid_state_of_exists _ pid tid (getThreadByTid_exists_of_dup _ pid tid ts hcond)
    rw [hst]
    refine ⟨by rw [getByPid_cst], ?_, hcond⟩
    rw [getByPid_processes_self]
    simp
  · injection hrun with hrun
    subst hrun
    refine ⟨?_, ?_, ?_⟩
    · simp [setProcess, setThread, storeThread, getThreadByTid_cst, getByPid_cst]
    · simp [setProcess]
    · rw [getThreadByTid_fst_eq]
      by_cases htp : tid = pid <;>
        simp [htp, processOf, setProcess, setThread, storeThread, sampleThreadEvolve_last]

/-- Claim C3 (confirmed): a Sample whose (tid, timestamp) equals the owning
thread's last-sample timestamp is dropped without appending to the sample
store (the returned state is exactly the pre-append state), and delivering
the same sample record twice is idempotent: running `handle_sample` a second
time on the resulting state changes nothing. -/
theorem duplicate_sample_suppression (c : ConverterState) (e : SampleRecordM) :
    (handleSample c e).bind (fun c2 => handleSample c2 e) = handleSample c e
    ∧ (∀ pid tid ts, e.pid = some pid → e.tid = some tid → e.timestamp = some ts →
        (getThreadByTid ((getByPid { c with currentSampleTime := ts } pid)).2
            pid tid).1.lastSampleTimestamp = some ts →
        handleSample c e
          = Except.ok ((getThreadByTid ((getByPid { c with currentSampleTime := ts } pid)).2
              pid tid)).2) := by
  constructor
  · rcases h1 : e.pid with _ | pid
    · simp only [handleSample, h1]; rfl
    rcases h2 : e.tid with _ | tid
    · simp only [handleSample, h1, h2]; rfl
    rcases h3 : e.timestamp with _ | ts
    · simp only [handleSample, h1, h2, h3]; rfl
    rcases hrun : handleSample c e with msg | cB
    · rfl
    · rw [except_bind_ok]
      obtain ⟨f1, f2, f3⟩ := handleSample_ok_facts c cB e pid tid ts h1 h2 h3 hrun
      have hex : ∃ p, cB.processes pid = some p := by
        rcases h : cB.processes pid with _ | p
        · exact absurd h f2
        · exact ⟨p, rfl⟩
      exact handleSample_ensured_dup cB e pid tid ts h1 h2 h3 f1 hex f3
  · intro pid tid ts h1 h2 h3 hdup
    exact handleSample_dup c e pid tid ts h1 h2 h3 hdup

/-- A sample record that duplicates monotonic timestamp 100 on thread (1,1). -/
def dupSampleRecord : SampleRecordM :=
  { pid := some 1, tid := some 1, timestamp := some 100, cpuMode := StackMode.user,
    callchain := none, dwarf := none, ip := some 4096, period := none, rawRss := none }

/-- A state whose thread (1,1) has already stored a sample at monotonic
timestamp 100. -/
def dupWitnessState : ConverterState :=
  setThread ((getByPid emptyConverter 1)).2 1 1
    { freshThread 0 with lastSampleTimestamp := some 100 }

/-- Witness for `duplicate_sample_suppression` at a concrete state and
record. -/
theorem duplicate_sample_suppression_witness :
    ((handleSample dupWitnessState dupSampleRecord).bind
        (fun c2 => handleSample c2 dupSampleRecord)
      = handleSample dupWitnessState dupSampleRecord)
    ∧ ((getThreadByTid ((getByPid { dupWitnessState with currentSampleTime := 100 } 1)).2
          1 1).1.lastSampleTimestamp = some 100
      ∧ handleSample dupWitnessState dupSampleRecord
          = Except.ok ((getThreadByTid
              ((getByPid { dupWitnessState with currentSampleTime := 100 } 1)).2 1 1)).2) :=
  ⟨(duplicate_sample_suppression dupWitnessState dupSampleRecord).1,
   by decide,
   (duplicate_sample_suppression dupWitnessState dupSampleRecord).2 1 1 100 rfl rfl rfl
     (by decide)⟩

/-- Claim C5 (amended): a Sample record missing its pid, tid or timestamp
panics with a clear message (`expect`), and the panic aborts the whole
conversion — no subsequent record of the stream is processed.  (The
best-effort continuation the spec promises applies to the recoverable error
paths, not to these contract violations.) -/
theorem missing_sample_fields_abort (c : ConverterState) (e : SampleRecordM)
    (rest : List SampleRecordM) :
    (e.pid = none → handleSample c e = Except.error "Cant handle samples without pids")
    ∧ (∀ pid, e.pid = some pid → e.tid = none →
        handleSample c e = Except.error "Cant handle samples without tids")
    ∧ (∀ pid tid, e.pid = some pid → e.tid = some tid → e.timestamp = none →
        handleSample c e = Except.error "Cant handle samples without timestamps")
    ∧ (∀ msg, handleSample c e = Except.error msg →
        processStream c (e :: rest) = Except.error msg) := by
  refine ⟨?_, ?_, ?_, ?_⟩
  · intro h
    simp only [handleSample, h]
  · intro pid h1 h2
    simp only [handleSample, h1, h2]
  · intro pid tid h1 h2 h3
    simp only [handleSample, h1, h2, h3]
  · intro msg h
    simp only [processStream, h]

/-- Witness for `missing_sample_fields_abort`: a record with no pid panics
and the stream processing aborts with that panic. -/
theorem missing_sample_fields_abort_witness :
    handleSample emptyConverter noPidSampleRecord
      = Except.error "Cant handle samples without pids"
    ∧ processStream emptyConverter (noPidSampleRecord :: [simpleSampleRecord])
      = Except.error "Cant handle samples without pids" :=
  ⟨(missing_sample_fields_abort emptyConverter noPidSampleRecord [simpleSampleRecord]).1 rfl,
   (missing_sample_fields_abort emptyConverter noPidSampleRecord [simpleSampleRecord]).2.2.2
     "Cant handle samples without pids"
     ((missing_sample_fields_abort emptyConverter noPidSampleRecord [simpleSampleRecord]).1 rfl)⟩

/-- Counterexample to claim C5 as stated: a stream whose first Sample record
is missing its pid makes the whole conversion abort (the `expect` panic
propagates) — the well-formed second record is never processed, refuting
"after any record fails, processing of subsequent records continues
best-effort". -/
theorem conversion_abort_counterexample :
    processStream emptyConverter [noPidSampleRecord, simpleSampleRecord]
      = Except.error "Cant handle samples without pids"
    ∧ ∀ c2, processStream emptyConverter [noPidSampleRecord, simpleSampleRecord]
        ≠ Except.ok c2 := by
  have h : processStream emptyConverter [noPidSampleRecord, simpleSampleRecord]
      = Except.error "Cant handle samples without pids" := rfl
  refine ⟨h, fun c2 hc => ?_⟩
  rw [h] at hc
  cases hc

theorem sampleThreadEvolve_delta (c : ConverterState) (e : SampleRecordM) (ts : Nat)
    (t : ThreadM) :
    (sampleThreadEvolve c e ts t).2.2 = sampleCpuDeltaSpec c e ts t := by
  unfold sampleThreadEvolve sampleCpuDeltaSpec
  dsimp only
  rcases hr : (contextSwitchHandlerHandleSample c.offCpuSamplingIntervalNs ts
      t.contextSwitchData).1 with _ | g <;>
    rcases ho : t.offCpuStack with _ | st <;>
    by_cases hcs : c.haveContextSwitches <;>
    simp [hr, ho, hcs, consumeCpuDelta, contextSwitchHandlerHandleSample_onCpu] <;>
    rcases e.period with _ | p <;>
    simp

theorem getByPid_hcs (c : ConverterState) (pid : Int) :
    ((getByPid c pid).2).haveContextSwitches = c.haveContextSwitches := by
  unfold getByPid
  rcases c.processes pid with _ | p <;> rfl

theorem getByPid_interval (c : ConverterState) (pid : Int) :
    ((getByPid c pid).2).offCpuSamplingIntervalNs = c.offCpuSamplingIntervalNs := by
  unfold getByPid
  rcases c.processes pid with _ | p <;> rfl

theorem getThreadByTid_hcs (c : ConverterState) (pid tid : Int) :
    ((getThreadByTid c pid tid).2).haveContextSwitches = c.haveContextSwitches := by
  unfold getThreadByTid setProcess
  by_cases h : tid = pid
  · simp [h]
  · rcases hc : (processOf c pid).otherThreads tid with _ | t <;> simp [h, hc]

theorem getThreadByTid_interval (c : ConverterState) (pid tid : Int) :
    ((getThreadByTid c pid tid).2).offCpuSamplingIntervalNs = c.offCpuSamplingIntervalNs := by
  unfold getThreadByTid setProcess
  by_cases h : tid = pid
  · simp [h]
  · rcases hc : (processOf c pid).otherThreads tid with _ | t <;> simp [h, hc]

theorem processOf_setProcess_same (c : ConverterState) (pid : Int) (p : ProcessM) :
    processOf (setProcess c pid p) pid = p := by
  simp [processOf, setProcess]

theorem sampleCpuDeltaSpec_congr (c1 c2 : ConverterState) (e : SampleRecordM) (ts : Nat)
    (t : ThreadM)
    (h1 : c1.haveContextSwitches = c2.haveContextSwitches)
    (h2 : c1.offCpuSamplingIntervalNs = c2.offCpuSamplingIntervalNs) :
    sampleCpuDeltaSpec c1 e ts t = sampleCpuDeltaSpec c2 e ts t := by
  unfold sampleCpuDeltaSpec
  rw [h1, h2]

/-- Claim C1 (amended): for a non-duplicate Sample record, the stored
sample's CPU delta is — when context switches are available — the tracker's
accumulated on-CPU running time since the last sample (zero if an off-CPU
group with a saved stack just consumed it as the group's leftover delta);
otherwise, the record's period interpreted as nanoseconds whenever a period
is present, **regardless of whether the event is clock-like** (the converter
never inspects the event type, converter.rs line 234); otherwise zero.  The
stored weight is 1. -/
theorem sample_cpu_delta (c : ConverterState) (e : SampleRecordM) (pid tid : Int) (ts : Nat)
    (h1 : e.pid = some pid) (h2 : e.tid = some tid) (h3 : e.timestamp = some ts)
    (hdup : ¬ (getThreadByTid ((getByPid { c with currentSampleTime := ts } pid)).2
        pid tid).1.lastSampleTimestamp = some ts) :
    ∃ c2, handleSample c e = Except.ok c2
      ∧ ((processOf c2 pid).unresolvedSamples.getLast?).map UnresolvedSample.cpuDelta
          = some (sampleCpuDeltaSpec c e ts
              (getThreadByTid ((getByPid { c with currentSampleTime := ts } pid)).2 pid tid).1)
      ∧ ((processOf c2 pid).unresolvedSamples.getLast?).map UnresolvedSample.weight
          = some 1 := by
  simp only [handleSample, h1, h2, h3]
  rw [if_neg hdup]
  refine ⟨_, rfl, ?_, ?_⟩
  · rw [processOf_setProcess_same]
    dsimp only
    rw [List.getLast?_concat]
    rw [show ∀ (o : UnresolvedSample), Option.map UnresolvedSample.cpuDelta (some o)
        = some o.cpuDelta from fun _ => rfl]
    rw [sampleThreadEvolve_delta]
    rw [sampleCpuDeltaSpec_congr _ c e ts _ (by rw [getThreadByTid_hcs, getByPid_hcs])
      (by rw [getThreadByTid_interval, getByPid_interval])]
  · rw [processOf_setProcess_same]
    dsimp only
    rw [List.getLast?_concat]
    rfl

/-- A sample record carrying a period of 7 ns on thread (1,1). -/
def periodSampleRecord : SampleRecordM :=
  { pid := some 1, tid := some 1, timestamp := some 5, cpuMode := StackMode.user,
    callchain := none, dwarf := none, ip := some 4096, period := some 7, rawRss := none }

/-- Witness for `sample_cpu_delta` at a concrete record and state. -/
theorem sample_cpu_delta_witness :
    ¬ (getThreadByTid ((getByPid { emptyConverter with currentSampleTime := 5 } 1)).2
        1 1).1.lastSampleTimestamp = some 5
    ∧ ∃ c2, handleSample emptyConverter periodSampleRecord = Except.ok c2
        ∧ ((processOf c2 1).unresolvedSamples.getLast?).map UnresolvedSample.cpuDelta
            = some (sampleCpuDeltaSpec emptyConverter periodSampleRecord 5
                (getThreadByTid ((getByPid { emptyConverter with currentSampleTime := 5 } 1)).2
                  1 1).1)
        ∧ ((processOf c2 1).unresolvedSamples.getLast?).map UnresolvedSample.weight
            = some 1 :=
  ⟨by decide,
   sample_cpu_delta emptyConverter periodSampleRecord 1 1 5 rfl rfl rfl (by decide)⟩

/-- Counterexample to claim C1 as stated: with context switches unavailable,
a non-clock-like event and a record carrying period 7, the converter stores
CPU delta 7 (it never checks whether the event is clock-like), while the
claim's "otherwise the CPU delta is zero" demands 0. -/
theorem sample_cpu_delta_counterexample :
    emptyConverter.haveContextSwitches = false
    ∧ emptyConverter.eventIsClockLike = false
    ∧ ((handleSample emptyConverter periodSampleRecord).toOption.map
        (fun c2 => (processOf c2 1).unresolvedSamples.map UnresolvedSample.cpuDelta))
      = some [7]
    ∧ claimedCpuDeltaC1 emptyConverter periodSampleRecord ⟨none, 0, none⟩ = 0
    ∧ (7 : Nat) ≠ 0 := by
  refine ⟨rfl, rfl, by decide, by decide, by decide⟩

/-- The sizes observed for member code `m` in an RssStat record list
`(member, size, timestamp)`. -/
def memberSizes (m : Int) (recs : List (Int × Int × Nat)) : List Int :=
  (recs.filter (fun r => r.1 = m)).map (fun r => r.2.1)

theorem recognized_member_cases (m : Int) (h : (rssStatMemberOf m).isSome) :
    m = MM_FILEPAGES ∨ m = MM_ANONPAGES ∨ m = MM_SHMEMPAGES ∨ m = MM_SWAPENTS := by
  unfold rssStatMemberOf at h
  split_ifs at h with h1 h2 h3 h4
  · exact Or.inl h1
  · exact Or.inr (Or.inl h2)
  · exact Or.inr (Or.inr (Or.inl h3))
  · exact Or.inr (Or.inr (Or.inr h4))
  · simp at h

theorem memberOf_inj (m m2 : Int) (l : RssStatMember) (hm : rssStatMemberOf m = some l)
    (hm2 : rssStatMemberOf m2 = some l) : m = m2 := by
  have c1 := recognized_member_cases m (by rw [hm]; rfl)
  have c2 := recognized_member_cases m2 (by rw [hm2]; rfl)
  rcases c1 with rfl | rfl | rfl | rfl <;> rcases c2 with rfl | rfl | rfl | rfl <;>
    simp [rssStatMemberOf, MM_FILEPAGES, MM_ANONPAGES, MM_SHMEMPAGES, MM_SWAPENTS]
      at hm hm2 <;> first | rfl | (rw [← hm] at hm2; cases hm2)

theorem prevFor_setPrev (p : ProcessM) (m m2 : Int) (s : Int)
    (hm : (rssStatMemberOf m).isSome) (hm2 : (rssStatMemberOf m2).isSome) :
    prevForMember (setPrevForMember p m s) m2 = if m2 = m then s else prevForMember p m2 := by
  rcases recognized_member_cases m hm with rfl | rfl | rfl | rfl <;>
    rcases recognized_member_cases m2 hm2 with rfl | rfl | rfl | rfl <;>
    simp [prevForMember, setPrevForMember, MM_FILEPAGES, MM_ANONPAGES, MM_SHMEMPAGES,
      MM_SWAPENTS]

theorem setPrevForMember_markers (p : ProcessM) (m s : Int) :
    (setPrevForMember p m s).rssMarkers = p.rssMarkers := by
  unfold setPrevForMember
  split_ifs <;> rfl

theorem setPrevForMember_counter (p : ProcessM) (m s : Int) :
    (setPrevForMember p m s).memCounter = p.memCounter := by
  unfold setPrevForMember
  split_ifs <;> rfl

theorem setPrevForMember_mainThread (p : ProcessM) (m s : Int) :
    (setPrevForMember p m s).mainThread = p.mainThread := by
  unfold setPrevForMember
  split_ifs <;> rfl

theorem getSampleStack_rss (pid : Int) (m s : Int) (t : Nat) (b : Bool) :
    getSampleStack (mkRssRecord pid m s t) b = [] := rfl

theorem mkRssRecord_pid (pid : Int) (m s : Int) (t : Nat) :
    (mkRssRecord pid m s t).pid = some pid := rfl

theorem mkRssRecord_rawRss (pid : Int) (m s : Int) (t : Nat) :
    (mkRssRecord pid m s t).rawRss = some (Except.ok (m, s)) := rfl

theorem mkRssRecord_timestamp (pid : Int) (m s : Int) (t : Nat) :
    (mkRssRecord pid m s t).timestamp = some t := rfl

theorem memberSizes_cons_self (m s : Int) (t : Nat) (recs : List (Int × Int × Nat)) :
    memberSizes m ((m, s, t) :: recs) = s :: memberSizes m recs := by
  simp [memberSizes]

theorem memberSizes_cons_ne (m m0 s : Int) (t : Nat) (recs : List (Int × Int × Nat))
    (h : ¬ m0 = m) : memberSizes m ((m0, s, t) :: recs) = memberSizes m recs := by
  simp [memberSizes, h]

/-- The process state `handle_rss_stat` stores for a recognized member:
previous-size field updated, memory counter appended for the anonymous-pages
member, and one marker labelled by the member appended. -/
def rssStepProcess (c : ConverterState) (p : ProcessM) (m s : Int) (t : Nat)
    (lbl : RssStatMember) : ProcessM :=
  let delta := s - prevForMember p m
  let p1 := setPrevForMember p m s
  let p2 := if m = MM_ANONPAGES then
      { p1 with memCounter := some ((p1.memCounter.getD []) ++
          [(convertTime c.timestampRef t, delta)]) }
    else p1
  { p2 with rssMarkers := p2.rssMarkers ++
      [⟨p2.mainThread.profileThread, convertTime c.timestampRef t, t,
        (unresolvedStacksConvert c.unresolvedStacks []).1, lbl, s, delta⟩] }

theorem counter_update_prev (q : ProcessM) (x : Option (List (Nat × Int))) (m2 : Int) :
    prevForMember { q with memCounter := x } m2 = prevForMember q m2 := by
  unfold prevForMember
  split_ifs <;> rfl

theorem counter_update_markers (q : ProcessM) (x : Option (List (Nat × Int))) :
    ({ q with memCounter := x } : ProcessM).rssMarkers = q.rssMarkers := rfl

theorem rssStepProcess_markers (c : ConverterState) (p : ProcessM) (m s : Int) (t : Nat)
    (lbl : RssStatMember) :
    (rssStepProcess c p m s t lbl).rssMarkers = p.rssMarkers ++
      [⟨p.mainThread.profileThread, convertTime c.timestampRef t, t,
        (unresolvedStacksConvert c.unresolvedStacks []).1, lbl, s,
        s - prevForMember p m⟩] := by
  unfold rssStepProcess
  dsimp only
  split_ifs <;>
    simp [setPrevForMember_markers, setPrevForMember_mainThread]

theorem rssStepProcess_prev (c : ConverterState) (p : ProcessM) (m s : Int) (t : Nat)
    (lbl : RssStatMember) (hm : (rssStatMemberOf m).isSome) (m2 : Int)
    (hm2 : (rssStatMemberOf m2).isSome) :
    prevForMember (rssStepProcess c p m s t lbl) m2
      = if m2 = m then s else prevForMember p m2 := by
  unfold rssStepProcess
  dsimp only
  rw [show ∀ (q : ProcessM) (x : List RssMarker),
      prevForMember { q with rssMarkers := x } m2 = prevForMember q m2 from
      fun q x => by unfold prevForMember; split_ifs <;> rfl]
  by_cases hA : m = MM_ANONPAGES
  · rw [if_pos hA, counter_update_prev]
    exact prevFor_setPrev p m m2 s hm hm2
  · rw [if_neg hA]
    exact prevFor_setPrev p m m2 s hm hm2

theorem rssStepProcess_counter (c : ConverterState) (p : ProcessM) (m s : Int) (t : Nat)
    (lbl : RssStatMember) :
    (rssStepProcess c p m s t lbl).memCounter
      = (if m = MM_ANONPAGES then
          some ((p.memCounter.getD []) ++
            [(convertTime c.timestampRef t, s - prevForMember p m)])
        else p.memCounter) := by
  unfold rssStepProcess
  dsimp only
  split_ifs with hA <;> simp [setPrevForMember_counter]

theorem setProcess_setProcess (c : ConverterState) (pid : Int) (p1 p2 : ProcessM) :
    setProcess (setProcess c pid p1) pid p2 = setProcess c pid p2 := by
  unfold setProcess
  congr 1
  funext k
  by_cases h : k = pid <;> simp [h]

theorem handleRssStat_step (c : ConverterState) (pid : Int) (m s : Int) (t : Nat)
    (p : ProcessM) (hp : c.processes pid = some p) (lbl : RssStatMember)
    (hm : rssStatMemberOf m = some lbl) :
    handleRssStat c (mkRssRecord pid m s t)
      = Except.ok (setProcess
          { c with unresolvedStacks := (unresolvedStacksConvert c.unresolvedStacks []).2 }
          pid (rssStepProcess c p m s t lbl)) := by
  have hbp : getByPid c pid = (p, c) := by unfold getByPid; rw [hp]
  have hpo : processOf c pid = p := by simp [processOf, hp]
  simp only [handleRssStat, mkRssRecord_pid, mkRssRecord_rawRss, mkRssRecord_timestamp, hbp,
    hm, getSampleStack_rss, List.reverse_nil, hpo]
  rw [show ∀ (x : ConverterState) (q : ProcessM),
      (setProcess x pid q).unresolvedStacks = x.unresolvedStacks from fun x q => rfl]
  rw [show ∀ (x : ConverterState) (X : List (List StackFrame)) (q : ProcessM),
      processOf { setProcess x pid q with unresolvedStacks := X } pid = q from
      fun x X q => by simp [processOf, setProcess]]
  rw [show ∀ (x : ConverterState) (X : List (List StackFrame)) (q1 q2 : ProcessM),
      setProcess { setProcess x pid q1 with unresolvedStacks := X } pid q2
        = setProcess { x with unresolvedStacks := X } pid q2 from
      fun x X q1 q2 => by
        unfold setProcess
        congr 1
        funext k
        by_cases h : k = pid <;> simp [h]]
  unfold rssStepProcess
  dsimp only

/-- Claim C6 (confirmed): over any stream of recognized RssStat records for
one process, each record applies `delta = size - prior` exactly once and sets
the prior to the size — so per member the applied delta sequence equals the
first differences of the observed size sequence and the final prior equals
the last observed size; only the anonymous-pages member appends
`(time, delta)` to the process memory counter; and every recognized record
attaches exactly one marker labelled by its member, carrying its size and
delta. -/
theorem rss_accounting (recs : List (Int × Int × Nat)) :
    ∀ (c : ConverterState) (pid : Int) (p0 : ProcessM),
      c.processes pid = some p0 →
      (∀ r ∈ recs, (rssStatMemberOf r.1).isSome) →
      ∃ pF newMarkers newCounter,
        (runRss c pid recs).processes pid = some pF
        ∧ pF.rssMarkers = p0.rssMarkers ++ newMarkers
        ∧ pF.memCounter.getD [] = p0.memCounter.getD [] ++ newCounter
        ∧ (∀ m lbl, rssStatMemberOf m = some lbl →
            (newMarkers.filter (fun mk => mk.member = lbl)).map RssMarker.delta
              = firstDiffs (prevForMember p0 m) (memberSizes m recs)
            ∧ prevForMember pF m = (memberSizes m recs).getLastD (prevForMember p0 m))
        ∧ newCounter.map Prod.snd
            = firstDiffs (prevForMember p0 MM_ANONPAGES) (memberSizes MM_ANONPAGES recs)
        ∧ newMarkers.map RssMarker.member = recs.filterMap (fun r => rssStatMemberOf r.1)
        ∧ newMarkers.map RssMarker.size = recs.map (fun r => r.2.1) := by
  induction recs with
  | nil =>
    intro c pid p0 hp hrec
    refine ⟨p0, [], [], by simp [runRss, hp], by simp, by simp, ?_,
      by simp [memberSizes, firstDiffs], by simp, by simp⟩
    intro m lbl hml
    constructor
    · simp [memberSizes, firstDiffs]
    · simp [memberSizes, List.getLastD]
  | cons r rest ih =>
    obtain ⟨m0, s0, t0⟩ := r
    intro c pid p0 hp hrec
    have hm0 : (rssStatMemberOf m0).isSome := hrec _ (List.mem_cons_self _ _)
    obtain ⟨lbl0, hml0⟩ := Option.isSome_iff_exists.mp hm0
    have hstep := handleRssStat_step c pid m0 s0 t0 p0 hp lbl0 hml0
    have hrun : runRss c pid ((m0, s0, t0) :: rest)
        = runRss (setProcess
            { c with unresolvedStacks := (unresolvedStacksConvert c.unresolvedStacks []).2 }
            pid (rssStepProcess c p0 m0 s0 t0 lbl0)) pid rest := by
      simp only [runRss, hstep]
    have hp2 : (setProcess
        { c with unresolvedStacks := (unresolvedStacksConvert c.unresolvedStacks []).2 }
        pid (rssStepProcess c p0 m0 s0 t0 lbl0)).processes pid
          = some (rssStepProcess c p0 m0 s0 t0 lbl0) := by
      simp [setProcess]
    have hrecrest : ∀ r2 ∈ rest, (rssStatMemberOf r2.1).isSome :=
      fun r2 hr => hrec r2 (List.mem_cons_of_mem _ hr)
    obtain ⟨pF, restM, restC, hfin, hMk, hCn, hPer, hCnt, hMem, hSz⟩ :=
      ih _ pid (rssStepProcess c p0 m0 s0 t0 lbl0) hp2 hrecrest
    have hp2mk := rssStepProcess_markers c p0 m0 s0 t0 lbl0
    have hp2prev : ∀ m2, (rssStatMemberOf m2).isSome →
        prevForMember (rssStepProcess c p0 m0 s0 t0 lbl0) m2
          = if m2 = m0 then s0 else prevForMember p0 m2 :=
      fun m2 h => rssStepProcess_prev c p0 m0 s0 t0 lbl0 hm0 m2 h
    have hp2cnt := rssStepProcess_counter c p0 m0 s0 t0 lbl0
    refine ⟨pF,
      (⟨p0.mainThread.profileThread, convertTime c.timestampRef t0, t0,
        (unresolvedStacksConvert c.unresolvedStacks []).1, lbl0, s0,
        s0 - prevForMember p0 m0⟩ : RssMarker) :: restM,
      (if m0 = MM_ANONPAGES then
        (convertTime c.timestampRef t0, s0 - prevForMember p0 m0) :: restC
      else restC), ?_, ?_, ?_, ?_, ?_, ?_, ?_⟩
    · rw [hrun]
      exact hfin
    · rw [hMk, hp2mk]
      simp
    · rw [hCn, hp2cnt]
      by_cases hA : m0 = MM_ANONPAGES
      · rw [if_pos hA, if_pos hA]
        simp
      · rw [if_neg hA, if_neg hA]
    · intro m lbl hml
      by_cases hEq : m = m0
      · subst hEq
        have hll : lbl = lbl0 := by
          rw [hml] at hml0
          exact Option.some.inj hml0
        subst hll
        obtain ⟨hPer1, hPer2⟩ := hPer m lbl hml
        have hPrevSelf : prevForMember (rssStepProcess c p0 m s0 t0 lbl) m = s0 := by
          rw [hp2prev m hm0]
          simp
        rw [hPrevSelf] at hPer1 hPer2
        constructor
        · rw [memberSizes_cons_self]
          simp only [List.filter_cons]
          rw [if_pos (by simp)]
          simp only [List.map_cons]
          rw [hPer1]
          rfl
        · rw [memberSizes_cons_self, hPer2, List.getLastD_cons]
      · have hll : ¬ (lbl0 = lbl) := by
          intro h
          subst h
          exact hEq (memberOf_inj m m0 lbl0 hml hml0)
        obtain ⟨hPer1, hPer2⟩ := hPer m lbl hml
        have hPrevNe : prevForMember (rssStepProcess c p0 m0 s0 t0 lbl0) m
            = prevForMember p0 m := by
          rw [hp2prev m (by rw [hml]; rfl)]
          simp [hEq]
        rw [hPrevNe] at hPer1 hPer2
        have hms := memberSizes_cons_ne m m0 s0 t0 rest (fun h => hEq h.symm)
        constructor
        · rw [hms, ← hPer1]
          simp [List.filter_cons, hll]
        · rw [hms, hPer2]
    · have hPrevA : prevForMember (rssStepProcess c p0 m0 s0 t0 lbl0) MM_ANONPAGES
          = if MM_ANONPAGES = m0 then s0 else prevForMember p0 MM_ANONPAGES :=
        hp2prev MM_ANONPAGES (by decide)
      by_cases hA : m0 = MM_ANONPAGES
      · subst hA
        rw [if_pos rfl]
        simp only [List.map_cons]
        rw [hCnt, hPrevA]
        simp only [if_pos rfl]
        rw [memberSizes_cons_self]
        rfl
      · rw [if_neg hA]
        rw [hCnt, hPrevA, if_neg (fun h => hA h.symm),
          memberSizes_cons_ne MM_ANONPAGES m0 s0 t0 rest hA]
    · simp only [List.map_cons]
      rw [hMem]
      simp [List.filterMap_cons, hml0]
    · simp only [List.map_cons]
      rw [hSz]

/-- Witness for `rss_accounting`: the S5-style stream — anon 4096, a
file-pages record in between, anon 8192 — for a fresh process. -/
theorem rss_accounting_witness :
    ((getByPid emptyConverter 1).2.processes 1 = some (freshProcess 0))
    ∧ (∀ r ∈ [((1 : Int), (4096 : Int), (10 : Nat)), (0, 555, 20), (1, 8192, 30)],
        (rssStatMemberOf r.1).isSome)
    ∧ ∃ pF newMarkers newCounter,
        (runRss (getByPid emptyConverter 1).2 1
            [((1 : Int), (4096 : Int), (10 : Nat)), (0, 555, 20), (1, 8192, 30)]).processes 1
          = some pF
        ∧ pF.rssMarkers = (freshProcess 0).rssMarkers ++ newMarkers
        ∧ pF.memCounter.getD [] = (freshProcess 0).memCounter.getD [] ++ newCounter
        ∧ (∀ m lbl, rssStatMemberOf m = some lbl →
            (newMarkers.filter (fun mk => mk.member = lbl)).map RssMarker.delta
              = firstDiffs (prevForMember (freshProcess 0) m)
                  (memberSizes m [((1 : Int), (4096 : Int), (10 : Nat)), (0, 555, 20),
                    (1, 8192, 30)])
            ∧ prevForMember pF m
              = (memberSizes m [((1 : Int), (4096 : Int), (10 : Nat)), (0, 555, 20),
                  (1, 8192, 30)]).getLastD (prevForMember (freshProcess 0) m))
        ∧ newCounter.map Prod.snd
            = firstDiffs (prevForMember (freshProcess 0) MM_ANONPAGES)
                (memberSizes MM_ANONPAGES [((1 : Int), (4096 : Int), (10 : Nat)), (0, 555, 20),
                  (1, 8192, 30)])
        ∧ newMarkers.map RssMarker.member
            = [((1 : Int), (4096 : Int), (10 : Nat)), (0, 555, 20),
                (1, 8192, 30)].filterMap (fun r => rssStatMemberOf r.1)
        ∧ newMarkers.map RssMarker.size
            = [((1 : Int), (4096 : Int), (10 : Nat)), (0, 555, 20),
                (1, 8192, 30)].map (fun r => r.2.1) :=
  ⟨rfl, by decide,
   rss_accounting [((1 : Int), (4096 : Int), (10 : Nat)), (0, 555, 20), (1, 8192, 30)]
     (getByPid emptyConverter 1).2 1 (freshProcess 0) rfl (by decide)⟩

theorem processesRemove_processes_self (c : ConverterState) (pid : Int) (endT : Nat) :
    (processesRemove c pid endT).processes pid = none := by
  unfold processesRemove
  rcases h : c.processes pid with _ | p
  · exact h
  · simp

theorem processesRemove_cst (c : ConverterState) (pid : Int) (endT : Nat) :
    (processesRemove c pid endT).currentSampleTime = c.currentSampleTime := by
  unfold processesRemove
  rcases c.processes pid with _ | p <;> rfl

theorem processesRemove_tref (c : ConverterState) (pid : Int) (endT : Nat) :
    (processesRemove c pid endT).timestampRef = c.timestampRef := by
  unfold processesRemove
  rcases c.processes pid with _ | p <;> rfl

theorem processOf_getByPid (c : ConverterState) (pid : Int) :
    processOf ((getByPid c pid)).2 pid = (getByPid c pid).1 := by
  rw [processOf, getByPid_processes_self]
  rfl

theorem getByPid_tref (c : ConverterState) (pid : Int) :
    ((getByPid c pid).2).timestampRef = c.timestampRef := by
  unfold getByPid
  rcases c.processes pid with _ | p <;> rfl

theorem getByPid_generator (c : ConverterState) (pid : Int) :
    ((getByPid c pid).2).delayedProductNameGenerator = c.delayedProductNameGenerator := by
  unfold getByPid
  rcases c.processes pid with _ | p <;> rfl

/-- The process stored at `pid` after `set_thread_name(pid, pid, name, itc)`:
name set on the main thread and the process; start times freshly stamped with
the converted current sample time iff `itc`. -/
theorem setThreadName_main_process (c : ConverterState) (pid : Int) (name : String)
    (itc : Bool) :
    processOf (setThreadName c pid pid name itc) pid
      = (if itc then
          { (getByPid c pid).1 with
              mainThread := { (getByPid c pid).1.mainThread with
                name := some name
                profileStartTime := some (convertTime c.timestampRef c.currentSampleTime) }
              name := some name
              profileStartTime := some (convertTime c.timestampRef c.currentSampleTime) }
        else
          { (getByPid c pid).1 with
              mainThread := { (getByPid c pid).1.mainThread with name := some name }
              name := some name }) := by
  unfold setThreadName
  have hbeq : (pid == pid) = true := by simp
  rw [hbeq]
  simp only [if_true, ite_true]
  rcases hd : c.delayedProductNameGenerator with _ | g
  all_goals (
    by_cases hitc : itc = true
    all_goals (
      simp only [hitc, if_true, ite_true, Bool.not_eq_true, if_false, ite_false]
      simp [getThreadByTid, setThread, storeThread, processOf, setProcess,
        getByPid_processes_self, getByPid_cst, getByPid_tref, getByPid_generator,
        processOf_getByPid, hd]
      try (by_cases hx : name = "perf-exec" <;> simp [hx])))

/-- Claim C8 (amended): on a CommOrExec record with the execve flag on a main
thread, the prior process is ended at the record's timestamp (the last known
sample time substituted when the record's timestamp is missing or zero);
reuse under the new name is attempted; and fresh process/thread start times
are set if and only if reuse fails — but they are set to the converter's
current (last-seen) sample time, **not** to the substituted record timestamp
(they coincide only when the record's timestamp is missing or zero).  On
successful reuse the reused process keeps its prior start time. -/
theorem execve_main_lifecycle (c : ConverterState) (pid : Int) (name : String)
    (tsOpt : Option Nat) :
    (∀ p, c.processes pid = some p →
      (processesRemove c pid (convertTime c.timestampRef
          (substituteTs tsOpt c.currentSampleTime))).processes pid = none
      ∧ (processesRemove c pid (convertTime c.timestampRef
          (substituteTs tsOpt c.currentSampleTime))).endedProcesses
        = c.endedProcesses ++ [(p.name,
            { p with
                profileEndTime := some (convertTime c.timestampRef
                  (substituteTs tsOpt c.currentSampleTime))
                mainThread := { p.mainThread with
                  profileEndTime := some (convertTime c.timestampRef
                    (substituteTs tsOpt c.currentSampleTime)) } })])
    ∧ ((attemptReuse (processesRemove c pid (convertTime c.timestampRef
          (substituteTs tsOpt c.currentSampleTime))) pid name).1 = false →
        (processOf (handleThreadNameUpdate c ⟨pid, pid, name, true⟩ tsOpt)
            pid).profileStartTime
          = some (convertTime c.timestampRef c.currentSampleTime)
        ∧ (processOf (handleThreadNameUpdate c ⟨pid, pid, name, true⟩ tsOpt)
            pid).mainThread.profileStartTime
          = some (convertTime c.timestampRef c.currentSampleTime))
    ∧ (∀ q rest2, findRemoveFirstNamed (processesRemove c pid (convertTime c.timestampRef
          (substituteTs tsOpt c.currentSampleTime))).endedProcesses name = some (q, rest2) →
        (processOf (handleThreadNameUpdate c ⟨pid, pid, name, true⟩ tsOpt)
            pid).profileStartTime = q.profileStartTime
        ∧ (processOf (handleThreadNameUpdate c ⟨pid, pid, name, true⟩ tsOpt)
            pid).name = some name) := by
  have hbeq : (pid == pid) = true := by simp
  refine ⟨?_, ?_, ?_⟩
  · intro p hp
    unfold processesRemove
    rw [hp]
    constructor
    · simp
    · rfl
  · intro hfail
    rcases hf : findRemoveFirstNamed (processesRemove c pid (convertTime c.timestampRef
        (substituteTs tsOpt c.currentSampleTime))).endedProcesses name with _ | qr
    · have hAR : attemptReuse (processesRemove c pid (convertTime c.timestampRef
          (substituteTs tsOpt c.currentSampleTime))) pid name
            = (false, processesRemove c pid (convertTime c.timestampRef
                (substituteTs tsOpt c.currentSampleTime))) := by
        unfold attemptReuse
        rw [hf]
      simp only [handleThreadNameUpdate, hbeq, if_true, ite_true, hAR, Bool.not_false]
      rw [setThreadName_main_process]
      have hnone := processesRemove_processes_self c pid (convertTime c.timestampRef
        (substituteTs tsOpt c.currentSampleTime))
      simp only [getByPid, hnone, processesRemove_cst, processesRemove_tref]
      constructor <;> rfl
    · exfalso
      have : (attemptReuse (processesRemove c pid (convertTime c.timestampRef
          (substituteTs tsOpt c.currentSampleTime))) pid name).1 = true := by
        unfold attemptReuse
        rw [hf]
      rw [this] at hfail
      cases hfail
  · intro q rest2 hf
    have hAR : attemptReuse (processesRemove c pid (convertTime c.timestampRef
        (substituteTs tsOpt c.currentSampleTime))) pid name
          = (true, { processesRemove c pid (convertTime c.timestampRef
              (substituteTs tsOpt c.currentSampleTime)) with
                processes := fun k => if k = pid then some q
                  else (processesRemove c pid (convertTime c.timestampRef
                    (substituteTs tsOpt c.currentSampleTime))).processes k
                endedProcesses := rest2 }) := by
      unfold attemptReuse
      rw [hf]
    simp only [handleThreadNameUpdate, hbeq, if_true, ite_true, hAR, Bool.not_true]
    rw [setThreadName_main_process]
    simp only [getByPid]
    simp

/-- A state whose process 5 exists and whose last seen sample time is 1000. -/
def c8State : ConverterState :=
  (getByPid { emptyConverter with currentSampleTime := 1000 } 5).2

/-- Witness for `execve_main_lifecycle`: an execve record with timestamp 5000
while the last seen sample time is 1000, with no reusable ended process. -/
theorem execve_main_lifecycle_witness :
    ((attemptReuse (processesRemove c8State 5 (convertTime c8State.timestampRef
        (substituteTs (some 5000) c8State.currentSampleTime))) 5 "foo").1 = false)
    ∧ ((processOf (handleThreadNameUpdate c8State ⟨5, 5, "foo", true⟩ (some 5000))
          5).profileStartTime
        = some (convertTime c8State.timestampRef c8State.currentSampleTime)
      ∧ (processOf (handleThreadNameUpdate c8State ⟨5, 5, "foo", true⟩ (some 5000))
          5).mainThread.profileStartTime
        = some (convertTime c8State.timestampRef c8State.currentSampleTime)) :=
  ⟨by decide, (execve_main_lifecycle c8State 5 "foo" (some 5000)).2.1 (by decide)⟩

/-- Counterexample to claim C8 as stated: for an execve record with timestamp
5000 arriving when the last seen sample time is 1000 and reuse fails, the
prior process is ended at 5000 (the substituted timestamp), but the fresh
process start time is set to 1000 — `set_thread_name` stamps
`current_sample_time` (converter.rs lines 793-800), not the substituted
timestamp the claim demands. -/
theorem execve_start_time_counterexample :
    substituteTs (some 5000) c8State.currentSampleTime = 5000
    ∧ convertTime c8State.timestampRef 5000 = 5000
    ∧ ((handleThreadNameUpdate c8State ⟨5, 5, "foo", true⟩ (some 5000)).endedProcesses.map
        (fun en => en.2.profileEndTime)) = [some 5000]
    ∧ (attemptReuse (processesRemove c8State 5 5000) 5 "foo").1 = false
    ∧ (processOf (handleThreadNameUpdate c8State ⟨5, 5, "foo", true⟩ (some 5000))
        5).profileStartTime = some 1000
    ∧ (1000 : Nat) ≠ 5000 := by
  exact ⟨rfl, rfl, by decide, by decide, by decide, by decide⟩

end Samply
